import Mathlib

/-!
Shallow embedding of the streaming voice-session core of the
`voice-ui-craft` repository (the full `AIVoiceInputDemo` component,
`src/unnamed/part_000`).

The embedding is split into two views of the same component state:

* `Player` — the Sequenced Reassembly Buffer and Playback Scheduler
  (`tryPlayInOrder`, `enqueueAudioBuffer`, `playNextFromQueue`, the
  `onmessage` media branch and the `playback`/stop branch,
  lines 366–451 of part_000).  Decoded `AudioBuffer`s are identified by
  their sequence number (each arriving frame's payload is assumed to
  decode successfully, as the ordering claims suppose).  The fields
  `sounding`, `started` and `enqueued` are observation histories:
  `sounding` holds the buffer sources that have been `start`ed and have
  not yet ended or been stopped, `started` records every source ever
  started in start order, `enqueued` records every buffer ever pushed
  onto the playback queue in push order.

* `SessionState` — the Session Coordinator / Transport lifecycle
  (`handleStart`, `handleStop`, `initWebSocket` and its callbacks,
  `cleanupResources`, `resetAllStates`, `handleConnectionFailure`,
  `handleWebSocketError`, `safelyCloseWebSocket`,
  lines 88–343 and 556–640 of part_000).  Release actions on owned
  resources are recorded in dedicated counters; `Date.now()` is threaded
  as an explicit `now : Nat` argument (milliseconds); the
  `setTimeout(..., 100)` in `handleStop` is modelled as a pending update
  that a later `firePendingUpdate` step applies, exactly as the real
  closure captures the recording id and the frozen duration but reads
  `audioChunksRef.current` only when it fires.

Log emission (`appendLog`, `setLogs`, per-recording log lists) is not
modelled: no claim below depends on log contents.
-/

/-- Entries of the sequence-indexed reorder buffer
`audioBufferMapRef.current : {[key: number]: AudioBuffer}`.
An association list from sequence number to decoded buffer. -/
abbrev BufMap := List (Nat × Nat)

/-- JS property read `m[k]`. -/
def lookupBuf : BufMap → Nat → Option Nat
  | [], _ => none
  | (k', v) :: rest, k => if k' = k then some v else lookupBuf rest k

/-- JS property delete `delete m[k]` (removes every entry at key `k`;
keys are unique in a JS object, and `insertBuf` keeps them unique). -/
def eraseBuf : BufMap → Nat → BufMap
  | [], _ => []
  | (k', v) :: rest, k =>
    if k' = k then eraseBuf rest k else (k', v) :: eraseBuf rest k

/-- JS property assignment `m[k] = v` (overwrites any previous entry). -/
def insertBuf (m : BufMap) (k v : Nat) : BufMap :=
  (k, v) :: eraseBuf m k

/-- The playback subsystem of the component, within an active session:
the refs touched by `tryPlayInOrder` / `enqueueAudioBuffer` /
`playNextFromQueue` plus observation histories (see module doc). -/
structure Player where
  /-- `playbackQueueRef.current` -/
  playbackQueue : List Nat
  /-- `isPlayingRef.current` -/
  isPlaying : Bool
  /-- `nextSeqToPlayRef.current` -/
  nextSeqToPlay : Nat
  /-- `audioBufferMapRef.current` -/
  audioBufferMap : BufMap
  /-- `currentPlaybackSourceRef.current` -/
  currentPlaybackSource : Option Nat
  /-- sources started and not yet ended/stopped (observation) -/
  sounding : List Nat
  /-- every source ever started, in start order (observation) -/
  started : List Nat
  /-- every buffer ever pushed onto the queue, in push order (observation) -/
  enqueued : List Nat
  /-- `audioContextRef.current` is non-null -/
  hasAudioContext : Bool
  /-- `mixerNodeRef.current` is non-null -/
  hasMixerNode : Bool
  deriving DecidableEq, Repr

/-- `playNextFromQueue` (part_000 lines 423–451).  On an empty queue the
scheduler goes idle; otherwise it shifts the head, and — provided the
audio context and mixer node are present, as the code checks — starts a
new buffer source for it. -/
def playNextFromQueue (p : Player) : Player :=
  match p.playbackQueue with
  | [] =>
    { p with isPlaying := false, currentPlaybackSource := none }
  | b :: rest =>
    if p.hasAudioContext && p.hasMixerNode then
      { p with
        playbackQueue := rest
        currentPlaybackSource := some b
        sounding := b :: p.sounding
        started := p.started ++ [b]
        isPlaying := true }
    else
      -- `if (!buffer || !audioContextRef.current || !mixerNodeRef.current) return`
      -- the buffer has already been shifted off the queue
      { p with playbackQueue := rest }

/-- `enqueueAudioBuffer` (lines 416–421): push onto the queue; kick the
scheduler only when the playing flag is clear. -/
def enqueueAudioBuffer (b : Nat) (p : Player) : Player :=
  let p := { p with
    playbackQueue := p.playbackQueue ++ [b]
    enqueued := p.enqueued ++ [b] }
  if p.isPlaying then p else playNextFromQueue p

/-- The `while` loop of `tryPlayInOrder` (lines 408–414), with explicit
fuel: while an entry exists at the next-expected counter, enqueue it,
delete it, increment the counter. -/
def tryPlayInOrderF : Nat → Player → Player
  | 0, p => p
  | fuel + 1, p =>
    match lookupBuf p.audioBufferMap p.nextSeqToPlay with
    | none => p
    | some b =>
      let p1 := enqueueAudioBuffer b p
      let p2 := { p1 with
        audioBufferMap := eraseBuf p1.audioBufferMap p1.nextSeqToPlay
        nextSeqToPlay := p1.nextSeqToPlay + 1 }
      tryPlayInOrderF fuel p2

/-- `tryPlayInOrder` (lines 408–414).  The loop removes one buffer-map
entry per iteration, so the map size bounds the iteration count. -/
def tryPlayInOrder (p : Player) : Player :=
  tryPlayInOrderF p.audioBufferMap.length p

/-- The asynchronous events that drive the playback subsystem. -/
inductive PlayerEvent
  /-- `onmessage` media branch (lines 380–396): an inbound frame with
  sequence number `seq` arrives and its payload decodes successfully. -/
  | arrive (seq : Nat)
  /-- `source.onended` (lines 443–448) fires for the sounding source. -/
  | ended
  /-- `onmessage` `{type:"playback", play:false}` branch (lines 366–374). -/
  | playbackStop
  deriving DecidableEq, Repr

/-- One event step of the playback subsystem.  `none` marks an event that
cannot fire (an `onended` with no started source). -/
def playerStep (p : Player) : PlayerEvent → Option Player
  | .arrive seq =>
    -- `if (audioContextRef.current) { ... decodeAudioData ...;
    --    audioBufferMapRef.current[seq] = audioBuffer; tryPlayInOrder(); }`
    if p.hasAudioContext then
      some (tryPlayInOrder
        { p with audioBufferMap := insertBuf p.audioBufferMap seq seq })
    else
      some p
  | .ended =>
    match p.sounding with
    | [] => none
    | _ :: rest =>
      -- `currentPlaybackSourceRef.current = null; isPlayingRef.current = false;
      --  playNextFromQueue();`
      some (playNextFromQueue
        { p with sounding := rest, currentPlaybackSource := none,
                 isPlaying := false })
  | .playbackStop =>
    -- `if (currentPlaybackSourceRef.current) { .stop(); ... = null; }
    --  isPlayingRef.current = false; playbackQueueRef.current = [];`
    let p :=
      match p.currentPlaybackSource with
      | some b =>
        { p with sounding := p.sounding.erase b, currentPlaybackSource := none }
      | none => p
    some { p with isPlaying := false, playbackQueue := [] }

/-- Run a list of playback events from a state. -/
def playerRun (p : Player) : List PlayerEvent → Option Player
  | [] => some p
  | e :: tr =>
    match playerStep p e with
    | none => none
    | some p' => playerRun p' tr

/-- The playback subsystem state right after `handleStart` resets it
(lines 173–176), inside an active session (audio graph present). -/
def initPlayer : Player :=
  { playbackQueue := []
    isPlaying := false
    nextSeqToPlay := 0
    audioBufferMap := []
    currentPlaybackSource := none
    sounding := []
    started := []
    enqueued := []
    hasAudioContext := true
    hasMixerNode := true }

/-- The sequence numbers carried by the arrival events of a trace, in
arrival order. -/
def eventSeqs : List PlayerEvent → List Nat
  | [] => []
  | .arrive s :: tr => s :: eventSeqs tr
  | _ :: tr => eventSeqs tr

/-- Repeatedly let the sounding source run to completion (`onended`)
until the scheduler is idle: the natural drain of the playback chain. -/
def drainF : Nat → Player → Player
  | 0, p => p
  | fuel + 1, p =>
    match p.sounding with
    | [] => p
    | _ :: rest =>
      drainF fuel (playNextFromQueue
        { p with sounding := rest, currentPlaybackSource := none,
                 isPlaying := false })

/-! ### Basic facts about the reorder buffer operations -/

theorem lookupBuf_eraseBuf_self (m : BufMap) (k : Nat) :
    lookupBuf (eraseBuf m k) k = none := by
  induction m with
  | nil => rfl
  | cons e rest ih =>
    obtain ⟨k₀, v₀⟩ := e
    by_cases h : k₀ = k
    · simpa [eraseBuf, h] using ih
    · simpa [eraseBuf, h, lookupBuf] using ih

theorem lookupBuf_eraseBuf_ne (m : BufMap) (k k' : Nat) (h : k' ≠ k) :
    lookupBuf (eraseBuf m k) k' = lookupBuf m k' := by
  induction m with
  | nil => rfl
  | cons e rest ih =>
    obtain ⟨k₀, v₀⟩ := e
    by_cases h0 : k₀ = k
    · subst h0
      have : ¬ k₀ = k' := fun hh => h (hh.symm)
      simp [eraseBuf, lookupBuf, this, ih]
    · by_cases h1 : k₀ = k'
      · simp [eraseBuf, lookupBuf, h0, h1, h]
      · simp [eraseBuf, lookupBuf, h0, h1, ih]

theorem lookupBuf_insertBuf_self (m : BufMap) (k v : Nat) :
    lookupBuf (insertBuf m k v) k = some v := by
  simp [insertBuf, lookupBuf]

theorem lookupBuf_insertBuf_ne (m : BufMap) (k v k' : Nat) (h : k' ≠ k) :
    lookupBuf (insertBuf m k v) k' = lookupBuf m k' := by
  have h' : ¬ k = k' := fun hh => h hh.symm
  simp [insertBuf, lookupBuf, h', lookupBuf_eraseBuf_ne m k k' h]

theorem eraseBuf_length_le (m : BufMap) (k : Nat) :
    (eraseBuf m k).length ≤ m.length := by
  induction m with
  | nil => simp [eraseBuf]
  | cons e rest ih =>
    obtain ⟨k₀, v₀⟩ := e
    by_cases h : k₀ = k
    · simp only [eraseBuf, if_pos h, List.length_cons]
      omega
    · simp only [eraseBuf, if_neg h, List.length_cons]
      omega

theorem eraseBuf_length_lt (m : BufMap) (k v : Nat)
    (h : lookupBuf m k = some v) : (eraseBuf m k).length < m.length := by
  induction m with
  | nil => simp [lookupBuf] at h
  | cons e rest ih =>
    obtain ⟨k₀, v₀⟩ := e
    by_cases h0 : k₀ = k
    · simp only [eraseBuf, if_pos h0, List.length_cons]
      have := eraseBuf_length_le rest k
      omega
    · simp only [lookupBuf, if_neg h0] at h
      simp only [eraseBuf, if_neg h0, List.length_cons]
      have := ih h
      omega

/-! ### The playback-scheduler invariants -/

/-- The sounding-source invariant of the Playback Scheduler: the audio
graph is present and either nothing is sounding (and the playing flag is
clear) or exactly the source held by `currentPlaybackSourceRef` is
sounding (and the flag is set). -/
structure SInv (p : Player) : Prop where
  ctx : p.hasAudioContext = true
  mixer : p.hasMixerNode = true
  sound : (p.currentPlaybackSource = none ∧ p.sounding = [] ∧ p.isPlaying = false) ∨
          (∃ b, p.currentPlaybackSource = some b ∧ p.sounding = [b] ∧ p.isPlaying = true)

/-- The reassembly invariant, relative to the list `A` of sequence
numbers that have arrived so far (each at most once): buffered entries
map a sequence number to its own decoded buffer; a sequence number is
buffered exactly when it has arrived and has not yet been released;
every released number has arrived; the enqueue history is exactly
`0, 1, …, nextSeqToPlay - 1`; the enqueue history splits into the start
history followed by the pending queue; and the scheduler is never idle
with a non-empty queue. -/
structure RInv (A : List Nat) (p : Player) : Prop where
  sinv : SInv p
  buf_val : ∀ k v, lookupBuf p.audioBufferMap k = some v → v = k
  buf_key : ∀ k, (lookupBuf p.audioBufferMap k).isSome ↔ (k ∈ A ∧ p.nextSeqToPlay ≤ k)
  released : ∀ k, k < p.nextSeqToPlay → k ∈ A
  enq_eq : p.enqueued = List.range p.nextSeqToPlay
  hist : p.enqueued = p.started ++ p.playbackQueue
  idle : p.isPlaying = false → p.playbackQueue = []

/-- After each event settles, no buffered entry remains at the
next-expected counter (`tryPlayInOrder` has drained the contiguous run). -/
def Quiet (p : Player) : Prop :=
  lookupBuf p.audioBufferMap p.nextSeqToPlay = none

theorem enqueueAudioBuffer_map (b : Nat) (p : Player) :
    (enqueueAudioBuffer b p).audioBufferMap = p.audioBufferMap := by
  unfold enqueueAudioBuffer playNextFromQueue
  dsimp only
  split
  · rfl
  · split
    · rfl
    · split <;> rfl

theorem enqueueAudioBuffer_next (b : Nat) (p : Player) :
    (enqueueAudioBuffer b p).nextSeqToPlay = p.nextSeqToPlay := by
  unfold enqueueAudioBuffer playNextFromQueue
  dsimp only
  split
  · rfl
  · split
    · rfl
    · split <;> rfl

/-- `enqueueAudioBuffer` under the sounding invariant: the push either
lands behind a playing chain or immediately starts the pushed buffer; in
both cases the scheduler ends up playing, the reorder buffer and counter
are untouched, the enqueue history grows by the pushed buffer, and the
history decomposition survives. -/
theorem enqueueAudioBuffer_spec (b : Nat) (p : Player) (h : SInv p) :
    SInv (enqueueAudioBuffer b p) ∧
    (enqueueAudioBuffer b p).isPlaying = true ∧
    (enqueueAudioBuffer b p).enqueued = p.enqueued ++ [b] ∧
    (p.enqueued = p.started ++ p.playbackQueue →
      (enqueueAudioBuffer b p).enqueued =
        (enqueueAudioBuffer b p).started ++ (enqueueAudioBuffer b p).playbackQueue) := by
  have hctx := h.ctx
  have hmix := h.mixer
  cases hp : p.isPlaying with
  | true =>
    have hs : (enqueueAudioBuffer b p) =
        { p with playbackQueue := p.playbackQueue ++ [b],
                 enqueued := p.enqueued ++ [b] } := by
      simp [enqueueAudioBuffer, hp]
    rw [hs]
    refine ⟨⟨hctx, hmix, ?_⟩, by simp [hp], by simp, ?_⟩
    · rcases h.sound with ⟨h1, h2, h3⟩ | ⟨b', h1, h2, h3⟩
      · rw [hp] at h3; cases h3
      · exact Or.inr ⟨b', h1, h2, h3⟩
    · intro hh
      simp [hh]
  | false =>
    rcases h.sound with ⟨h1, h2, h3⟩ | ⟨b', h1, h2, h3⟩
    · -- idle: the push starts playback at once
      cases hq : p.playbackQueue with
      | nil =>
        have hs : (enqueueAudioBuffer b p) =
            { p with playbackQueue := [], enqueued := p.enqueued ++ [b],
                     currentPlaybackSource := some b, sounding := [b],
                     started := p.started ++ [b], isPlaying := true } := by
          simp [enqueueAudioBuffer, hp, playNextFromQueue, hq, hctx, hmix, h2]
        rw [hs]
        refine ⟨⟨hctx, hmix, Or.inr ⟨b, by simp, by simp, by simp⟩⟩,
          by simp, by simp, ?_⟩
        intro hh
        simp [hh, hq]
      | cons q0 qrest =>
        have hs : (enqueueAudioBuffer b p) =
            { p with playbackQueue := qrest ++ [b], enqueued := p.enqueued ++ [b],
                     currentPlaybackSource := some q0, sounding := [q0],
                     started := p.started ++ [q0], isPlaying := true } := by
          simp [enqueueAudioBuffer, hp, playNextFromQueue, hq, hctx, hmix, h2]
        rw [hs]
        refine ⟨⟨hctx, hmix, Or.inr ⟨q0, by simp, by simp, by simp⟩⟩,
          by simp, by simp, ?_⟩
        intro hh
        simp [hh, hq]
    · rw [hp] at h3; cases h3

/-- `SInv` only looks at the audio-graph flags, the current source, the
sounding list and the playing flag, none of which the reorder-buffer
update of the `tryPlayInOrder` loop body touches. -/
theorem SInv_update_buf (p : Player) (m : BufMap) (n : Nat) (h : SInv p) :
    SInv { p with audioBufferMap := m, nextSeqToPlay := n } :=
  ⟨h.ctx, h.mixer, by
    rcases h.sound with ⟨h1, h2, h3⟩ | ⟨b, h1, h2, h3⟩
    · exact Or.inl ⟨h1, h2, h3⟩
    · exact Or.inr ⟨b, h1, h2, h3⟩⟩

/-- The `tryPlayInOrder` loop preserves the reassembly invariant (each
iteration releases exactly the entry at the counter, enqueues it, and
advances the counter). -/
theorem tryPlayInOrderF_RInv (A : List Nat) :
    ∀ (f : Nat) (p : Player), RInv A p → RInv A (tryPlayInOrderF f p)
  | 0, p, h => h
  | f + 1, p, h => by
    rw [tryPlayInOrderF]
    cases hl : lookupBuf p.audioBufferMap p.nextSeqToPlay with
    | none => exact h
    | some b =>
      have hb : b = p.nextSeqToPlay := h.buf_val _ _ hl
      obtain ⟨hs1, hs2, hs3, hs4'⟩ := enqueueAudioBuffer_spec b p h.sinv
      have hs4 := hs4' h.hist
      have hmap := enqueueAudioBuffer_map b p
      have hnext := enqueueAudioBuffer_next b p
      refine tryPlayInOrderF_RInv A f _ ?_
      refine ⟨SInv_update_buf _ _ _ hs1, ?_, ?_, ?_, ?_, ?_, ?_⟩
      · intro k v hkv
        simp only [hmap, hnext] at hkv
        by_cases hk : k = p.nextSeqToPlay
        · rw [hk, lookupBuf_eraseBuf_self] at hkv; cases hkv
        · rw [lookupBuf_eraseBuf_ne _ _ _ hk] at hkv
          exact h.buf_val k v hkv
      · intro k
        simp only [hmap, hnext]
        by_cases hk : k = p.nextSeqToPlay
        · rw [hk, lookupBuf_eraseBuf_self]
          simp
        · rw [lookupBuf_eraseBuf_ne _ _ _ hk]
          rw [h.buf_key k]
          constructor
          · rintro ⟨hA, hle⟩
            exact ⟨hA, by omega⟩
          · rintro ⟨hA, hle⟩
            exact ⟨hA, by omega⟩
      · intro k hk
        simp only [hnext] at hk
        by_cases hk' : k = p.nextSeqToPlay
        · subst hk'
          have hsome : (lookupBuf p.audioBufferMap p.nextSeqToPlay).isSome := by
            rw [hl]; rfl
          exact ((h.buf_key p.nextSeqToPlay).mp hsome).1
        · exact h.released k (by omega)
      · show (enqueueAudioBuffer b p).enqueued = List.range ((enqueueAudioBuffer b p).nextSeqToPlay + 1)
        rw [hs3, hnext, h.enq_eq, hb, List.range_succ]
      · exact hs4
      · intro hfalse
        rw [hs2] at hfalse
        cases hfalse

/-- The `tryPlayInOrder` loop leaves no entry at the counter, provided
the fuel covers the map size (each iteration strictly shrinks the map). -/
theorem tryPlayInOrderF_quiet :
    ∀ (f : Nat) (p : Player), p.audioBufferMap.length ≤ f →
      Quiet (tryPlayInOrderF f p)
  | 0, p, hf => by
    have : p.audioBufferMap = [] := List.eq_nil_of_length_eq_zero (by omega)
    show lookupBuf _ _ = none
    rw [tryPlayInOrderF, this]
    rfl
  | f + 1, p, hf => by
    rw [tryPlayInOrderF]
    cases hl : lookupBuf p.audioBufferMap p.nextSeqToPlay with
    | none => exact hl
    | some b =>
      refine tryPlayInOrderF_quiet f _ ?_
      have hmap := enqueueAudioBuffer_map b p
      have hnext := enqueueAudioBuffer_next b p
      simp only [hmap, hnext]
      have := eraseBuf_length_lt p.audioBufferMap p.nextSeqToPlay b hl
      omega

/-- Unfolding equation: the scheduler on an empty queue goes idle. -/
theorem playNextFromQueue_nil (p : Player) (hq : p.playbackQueue = []) :
    playNextFromQueue p =
      { p with isPlaying := false, currentPlaybackSource := none } := by
  simp [playNextFromQueue, hq]

/-- Unfolding equation: the scheduler on a non-empty queue, with the
audio graph present, shifts the head and starts it. -/
theorem playNextFromQueue_cons (p : Player) (q0 : Nat) (qrest : List Nat)
    (hq : p.playbackQueue = q0 :: qrest)
    (hc : p.hasAudioContext = true) (hm : p.hasMixerNode = true) :
    playNextFromQueue p =
      { p with playbackQueue := qrest, currentPlaybackSource := some q0,
               sounding := q0 :: p.sounding, started := p.started ++ [q0],
               isPlaying := true } := by
  simp [playNextFromQueue, hq, hc, hm]

/-- The `tryPlayInOrder` loop preserves the sounding invariant alone. -/
theorem tryPlayInOrderF_SInv :
    ∀ (f : Nat) (p : Player), SInv p → SInv (tryPlayInOrderF f p)
  | 0, _, h => h
  | f + 1, p, h => by
    rw [tryPlayInOrderF]
    cases hl : lookupBuf p.audioBufferMap p.nextSeqToPlay with
    | none => exact h
    | some b =>
      exact tryPlayInOrderF_SInv f _
        (SInv_update_buf _ _ _ (enqueueAudioBuffer_spec b p h).1)

/-- After the sounding source has been cleared (the `onended` callback
body), handing control back to the scheduler restores the sounding
invariant. -/
theorem SInv_after_ended (p0 : Player)
    (hc : p0.hasAudioContext = true) (hm : p0.hasMixerNode = true)
    (hs : p0.sounding = []) : SInv (playNextFromQueue p0) := by
  cases hq : p0.playbackQueue with
  | nil =>
    rw [playNextFromQueue_nil p0 hq]
    exact ⟨hc, hm, Or.inl ⟨rfl, hs, rfl⟩⟩
  | cons q0 qrest =>
    rw [playNextFromQueue_cons p0 q0 qrest hq hc hm]
    exact ⟨hc, hm, Or.inr ⟨q0, rfl, by rw [hs], rfl⟩⟩

/-- Every playback event preserves the sounding invariant. -/
theorem playerStep_SInv (p p' : Player) (e : PlayerEvent) (h : SInv p)
    (hstep : playerStep p e = some p') : SInv p' := by
  cases e with
  | arrive seq =>
    rw [playerStep, if_pos h.ctx] at hstep
    cases hstep
    exact tryPlayInOrderF_SInv _ _ (SInv_update_buf _ _ _ h)
  | ended =>
    rw [playerStep] at hstep
    cases hsound : p.sounding with
    | nil => rw [hsound] at hstep; cases hstep
    | cons x rest =>
      rw [hsound] at hstep
      cases hstep
      have hrest : rest = [] := by
        rcases h.sound with ⟨_, h2, _⟩ | ⟨b, _, h2, _⟩
        · rw [hsound] at h2; cases h2
        · rw [hsound] at h2; cases h2; rfl
      exact SInv_after_ended _ h.ctx h.mixer hrest
  | playbackStop =>
    rw [playerStep] at hstep
    rcases h.sound with ⟨h1, h2, h3⟩ | ⟨b, h1, h2, h3⟩
    · rw [h1] at hstep
      simp only [Option.some.injEq] at hstep
      cases hstep
      exact ⟨h.ctx, h.mixer, Or.inl ⟨h1, h2, rfl⟩⟩
    · rw [h1] at hstep
      simp only [Option.some.injEq] at hstep
      cases hstep
      refine ⟨h.ctx, h.mixer, Or.inl ⟨rfl, ?_, rfl⟩⟩
      rw [h2]
      simp [List.erase_cons]

/-- The sounding invariant holds along every run. -/
theorem playerRun_SInv :
    ∀ (tr : List PlayerEvent) (p q : Player), SInv p →
      playerRun p tr = some q → SInv q
  | [], p, q, h, hrun => by
    rw [playerRun] at hrun
    cases hrun
    exact h
  | e :: tr, p, q, h, hrun => by
    rw [playerRun] at hrun
    cases hstep : playerStep p e with
    | none => rw [hstep] at hrun; cases hrun
    | some p' =>
      rw [hstep] at hrun
      exact playerRun_SInv tr p' q (playerStep_SInv p p' e h hstep) hrun

/-- An arrival of a not-yet-seen sequence number preserves the
reassembly invariant, extended by that number. -/
theorem playerStep_arrive_RInv (A : List Nat) (p p' : Player) (s : Nat)
    (h : RInv A p) (hnew : s ∉ A)
    (hstep : playerStep p (.arrive s) = some p') : RInv (A ++ [s]) p' := by
  rw [playerStep, if_pos h.sinv.ctx] at hstep
  cases hstep
  apply tryPlayInOrderF_RInv
  have hsge : p.nextSeqToPlay ≤ s := by
    by_contra hlt
    exact hnew (h.released s (by omega))
  refine ⟨SInv_update_buf _ _ _ h.sinv, ?_, ?_, ?_, h.enq_eq, h.hist, h.idle⟩
  · intro k v hkv
    simp only at hkv
    by_cases hk : k = s
    · rw [hk, lookupBuf_insertBuf_self] at hkv
      cases hkv
      exact hk.symm
    · rw [lookupBuf_insertBuf_ne _ _ _ _ hk] at hkv
      exact h.buf_val k v hkv
  · intro k
    simp only
    by_cases hk : k = s
    · subst hk
      rw [lookupBuf_insertBuf_self]
      simp [hsge]
    · rw [lookupBuf_insertBuf_ne _ _ _ _ hk]
      rw [h.buf_key k]
      simp [hk]
  · intro k hk
    simp only at hk
    exact List.mem_append_left _ (h.released k hk)

/-- After the sounding source has been cleared, handing control back to
the scheduler preserves the whole reassembly invariant. -/
theorem RInv_after_ended (A : List Nat) (p0 : Player)
    (hc : p0.hasAudioContext = true) (hm : p0.hasMixerNode = true)
    (hs : p0.sounding = [])
    (hv : ∀ k v, lookupBuf p0.audioBufferMap k = some v → v = k)
    (hk : ∀ k, (lookupBuf p0.audioBufferMap k).isSome ↔
      (k ∈ A ∧ p0.nextSeqToPlay ≤ k))
    (hr : ∀ k, k < p0.nextSeqToPlay → k ∈ A)
    (he : p0.enqueued = List.range p0.nextSeqToPlay)
    (hh : p0.enqueued = p0.started ++ p0.playbackQueue) :
    RInv A (playNextFromQueue p0) := by
  cases hq : p0.playbackQueue with
  | nil =>
    rw [playNextFromQueue_nil p0 hq]
    exact ⟨⟨hc, hm, Or.inl ⟨rfl, hs, rfl⟩⟩, hv, hk, hr, he, hh, fun _ => hq⟩
  | cons q0 qrest =>
    rw [playNextFromQueue_cons p0 q0 qrest hq hc hm]
    refine ⟨⟨hc, hm, Or.inr ⟨q0, rfl, by rw [hs], rfl⟩⟩, hv, hk, hr, he, ?_, ?_⟩
    · show p0.enqueued = (p0.started ++ [q0]) ++ qrest
      rw [hh, hq]
      simp
    · intro hfalse
      cases hfalse

/-- The completion callback of the sounding source preserves the
reassembly invariant. -/
theorem playerStep_ended_RInv (A : List Nat) (p p' : Player)
    (h : RInv A p) (hstep : playerStep p .ended = some p') : RInv A p' := by
  rw [playerStep] at hstep
  cases hsound : p.sounding with
  | nil => rw [hsound] at hstep; cases hstep
  | cons x rest =>
    rw [hsound] at hstep
    cases hstep
    have hrest : rest = [] := by
      rcases h.sinv.sound with ⟨_, h2, _⟩ | ⟨b, _, h2, _⟩
      · rw [hsound] at h2; cases h2
      · rw [hsound] at h2; cases h2; rfl
    exact RInv_after_ended A _ h.sinv.ctx h.sinv.mixer hrest
      h.buf_val h.buf_key h.released h.enq_eq h.hist

/-- Along any stop-free run whose arrivals never repeat a sequence
number, the reassembly invariant holds relative to the accumulated
arrival list. -/
theorem playerRun_RInv :
    ∀ (tr : List PlayerEvent) (A : List Nat) (p q : Player), RInv A p →
      (A ++ eventSeqs tr).Nodup →
      (∀ e ∈ tr, e ≠ PlayerEvent.playbackStop) →
      playerRun p tr = some q → RInv (A ++ eventSeqs tr) q
  | [], A, p, q, h, _, _, hrun => by
    rw [playerRun] at hrun
    cases hrun
    simpa [eventSeqs] using h
  | .arrive s :: tr, A, p, q, h, hnd, hnostop, hrun => by
    rw [playerRun] at hrun
    cases hstep : playerStep p (.arrive s) with
    | none => rw [hstep] at hrun; cases hrun
    | some p' =>
      rw [hstep] at hrun
      have hES : eventSeqs (.arrive s :: tr) = s :: eventSeqs tr := rfl
      rw [hES] at hnd
      have hsA : s ∉ A := fun hsa =>
        (List.nodup_append.mp hnd).2.2 hsa (List.mem_cons_self s _)
      have h' := playerStep_arrive_RInv A p p' s h hsA hstep
      have hnd' : ((A ++ [s]) ++ eventSeqs tr).Nodup := by
        simpa [List.append_assoc] using hnd
      have := playerRun_RInv tr (A ++ [s]) p' q h' hnd'
        (fun e he => hnostop e (List.mem_cons_of_mem _ he)) hrun
      simpa [hES, List.append_assoc] using this
  | .ended :: tr, A, p, q, h, hnd, hnostop, hrun => by
    rw [playerRun] at hrun
    cases hstep : playerStep p .ended with
    | none => rw [hstep] at hrun; cases hrun
    | some p' =>
      rw [hstep] at hrun
      have h' := playerStep_ended_RInv A p p' h hstep
      have hES : eventSeqs (PlayerEvent.ended :: tr) = eventSeqs tr := rfl
      rw [hES]
      exact playerRun_RInv tr A p' q h' (by simpa [hES] using hnd)
        (fun e he => hnostop e (List.mem_cons_of_mem _ he)) hrun
  | .playbackStop :: tr, A, p, q, h, hnd, hnostop, hrun =>
    absurd rfl (hnostop _ (List.mem_cons_self _ _))

/-- `playNextFromQueue` never touches the reorder buffer or the counter. -/
theorem playNextFromQueue_buf (p : Player) :
    (playNextFromQueue p).audioBufferMap = p.audioBufferMap ∧
    (playNextFromQueue p).nextSeqToPlay = p.nextSeqToPlay := by
  unfold playNextFromQueue
  split
  · exact ⟨rfl, rfl⟩
  · split <;> exact ⟨rfl, rfl⟩

/-- Every playback event leaves the buffer quiescent: after the event,
no buffered entry sits at the next-expected counter. -/
theorem playerStep_quiet (p p' : Player) (e : PlayerEvent)
    (h : Quiet p) (hstep : playerStep p e = some p') : Quiet p' := by
  cases e with
  | arrive s =>
    rw [playerStep] at hstep
    cases hctx : p.hasAudioContext with
    | false =>
      rw [hctx] at hstep
      simp only [Bool.false_eq_true, if_false, Option.some.injEq] at hstep
      cases hstep
      exact h
    | true =>
      rw [if_pos hctx] at hstep
      cases hstep
      exact tryPlayInOrderF_quiet _ _ (le_refl _)
  | ended =>
    rw [playerStep] at hstep
    cases hsound : p.sounding with
    | nil => rw [hsound] at hstep; cases hstep
    | cons x rest =>
      rw [hsound] at hstep
      cases hstep
      show lookupBuf _ _ = none
      rw [(playNextFromQueue_buf _).1, (playNextFromQueue_buf _).2]
      exact h
  | playbackStop =>
    rw [playerStep] at hstep
    cases hcur : p.currentPlaybackSource with
    | none =>
      rw [hcur] at hstep
      simp only [Option.some.injEq] at hstep
      cases hstep
      exact h
    | some b =>
      rw [hcur] at hstep
      simp only [Option.some.injEq] at hstep
      cases hstep
      exact h

/-- Quiescence holds along every run. -/
theorem playerRun_quiet :
    ∀ (tr : List PlayerEvent) (p q : Player), Quiet p →
      playerRun p tr = some q → Quiet q
  | [], p, q, h, hrun => by
    rw [playerRun] at hrun
    cases hrun
    exact h
  | e :: tr, p, q, h, hrun => by
    rw [playerRun] at hrun
    cases hstep : playerStep p e with
    | none => rw [hstep] at hrun; cases hrun
    | some p' =>
      rw [hstep] at hrun
      exact playerRun_quiet tr p' q (playerStep_quiet p p' e h hstep) hrun

theorem SInv_initPlayer : SInv initPlayer :=
  ⟨rfl, rfl, Or.inl ⟨rfl, rfl, rfl⟩⟩

theorem RInv_initPlayer : RInv [] initPlayer := by
  refine ⟨SInv_initPlayer, ?_, ?_, ?_, rfl, rfl, fun _ => rfl⟩
  · intro k v hkv
    cases hkv
  · intro k
    constructor
    · intro hsome
      cases hsome
    · rintro ⟨hfalse, -⟩
      cases hfalse
  · intro k hk
    exact absurd hk (by simp [initPlayer])

theorem Quiet_initPlayer : Quiet initPlayer := rfl

/-- Draining the playback chain (letting every started source run to
completion) plays out exactly the pending queue, in order. -/
theorem drainF_started :
    ∀ (f : Nat) (p : Player), SInv p →
      p.enqueued = p.started ++ p.playbackQueue →
      (p.isPlaying = false → p.playbackQueue = []) →
      p.playbackQueue.length + p.sounding.length ≤ f →
      (drainF f p).started = p.started ++ p.playbackQueue
  | 0, p, h, hh, hi, hf => by
    have hq : p.playbackQueue = [] := by
      cases hq : p.playbackQueue with
      | nil => rfl
      | cons a l => rw [hq] at hf; simp at hf
    rw [drainF]
    cases hs : p.sounding with
    | nil => simp [hq]
    | cons x rest => rw [hs] at hf; simp [hq] at hf
  | f + 1, p, h, hh, hi, hf => by
    cases hs : p.sounding with
    | nil =>
      have hq : p.playbackQueue = [] := by
        rcases h.sound with ⟨_, _, h3⟩ | ⟨b, _, h2, _⟩
        · exact hi h3
        · rw [hs] at h2; cases h2
      rw [drainF, hs]
      simp [hq]
    | cons x rest =>
      have hrest : rest = [] := by
        rcases h.sound with ⟨_, h2, _⟩ | ⟨b, _, h2, _⟩
        · rw [hs] at h2; cases h2
        · rw [hs] at h2; cases h2; rfl
      subst hrest
      have hunf : drainF (f + 1) p = drainF f (playNextFromQueue
          { p with sounding := [], currentPlaybackSource := none,
                   isPlaying := false }) := by
        rw [drainF, hs]
      rw [hunf]
      cases hq : p.playbackQueue with
      | nil =>
        rw [playNextFromQueue_nil _ (by simp [hq])]
        have hrec := drainF_started f
          { p with sounding := [], currentPlaybackSource := none,
                   isPlaying := false }
          ⟨h.ctx, h.mixer, Or.inl ⟨rfl, rfl, rfl⟩⟩
          hh (fun _ => hq) (by simp [hq])
        rw [hq] at hrec
        exact hrec
      | cons q0 qrest =>
        rw [playNextFromQueue_cons
          { p with playbackQueue := q0 :: qrest, isPlaying := false,
                   currentPlaybackSource := none, sounding := [] }
          q0 qrest rfl h.ctx h.mixer]
        have hrec := drainF_started f
          { p with playbackQueue := qrest, currentPlaybackSource := some q0,
                   sounding := [q0], started := p.started ++ [q0],
                   isPlaying := true }
          ⟨h.ctx, h.mixer, Or.inr ⟨q0, rfl, rfl, rfl⟩⟩
          (by rw [hq] at hh; simpa using hh)
          (fun hfalse => by cases hfalse)
          (by rw [hq, hs] at hf; simp at hf ⊢; omega)
        simpa using hrec

/-- If the scheduler is already playing, the `tryPlayInOrder` loop only
accumulates buffers behind the chain: the playing flag and the start
history are untouched. -/
theorem tryPlayInOrderF_playing :
    ∀ (f : Nat) (p : Player), p.isPlaying = true →
      (tryPlayInOrderF f p).isPlaying = true ∧
      (tryPlayInOrderF f p).started = p.started
  | 0, p, h => ⟨h, rfl⟩
  | f + 1, p, h => by
    rw [tryPlayInOrderF]
    cases hl : lookupBuf p.audioBufferMap p.nextSeqToPlay with
    | none => exact ⟨h, rfl⟩
    | some b =>
      have hpush : (enqueueAudioBuffer b p) =
          { p with playbackQueue := p.playbackQueue ++ [b],
                   enqueued := p.enqueued ++ [b] } := by
        simp [enqueueAudioBuffer, h]
      have hrec := tryPlayInOrderF_playing f
        { enqueueAudioBuffer b p with
          audioBufferMap := eraseBuf (enqueueAudioBuffer b p).audioBufferMap
            (enqueueAudioBuffer b p).nextSeqToPlay
          nextSeqToPlay := (enqueueAudioBuffer b p).nextSeqToPlay + 1 }
        (by rw [hpush]; exact h)
      refine ⟨hrec.1, ?_⟩
      rw [hrec.2, hpush]

/-- When an entry sits at the counter, `tryPlayInOrder` runs its first
iteration; if that iteration leaves the scheduler playing, the rest of
the loop changes neither the flag nor the start history. -/
theorem tryPlayInOrder_found (p : Player) (b : Nat)
    (hl : lookupBuf p.audioBufferMap p.nextSeqToPlay = some b)
    (hplay : (enqueueAudioBuffer b p).isPlaying = true) :
    (tryPlayInOrder p).isPlaying = true ∧
    (tryPlayInOrder p).started = (enqueueAudioBuffer b p).started := by
  cases hm : p.audioBufferMap with
  | nil => rw [hm] at hl; cases hl
  | cons a l =>
    have hlen : p.audioBufferMap.length = l.length + 1 := by rw [hm]; rfl
    rw [tryPlayInOrder, hlen, tryPlayInOrderF, hl]
    exact tryPlayInOrderF_playing l.length
      { enqueueAudioBuffer b p with
        audioBufferMap := eraseBuf (enqueueAudioBuffer b p).audioBufferMap
          (enqueueAudioBuffer b p).nextSeqToPlay
        nextSeqToPlay := (enqueueAudioBuffer b p).nextSeqToPlay + 1 }
      hplay

/-- An idle scheduler with an empty queue starts a fresh chain the
moment the next-expected frame arrives. -/
theorem arrive_fresh_start (q : Player)
    (hctx : q.hasAudioContext = true) (hmix : q.hasMixerNode = true)
    (hqueue : q.playbackQueue = []) (hplay : q.isPlaying = false) :
    (playerStep q (.arrive q.nextSeqToPlay)).map Player.isPlaying = some true ∧
    (playerStep q (.arrive q.nextSeqToPlay)).map Player.started =
      some (q.started ++ [q.nextSeqToPlay]) := by
  rw [playerStep, if_pos hctx]
  have hpush : (enqueueAudioBuffer q.nextSeqToPlay
      { q with audioBufferMap :=
          insertBuf q.audioBufferMap q.nextSeqToPlay q.nextSeqToPlay }).isPlaying
        = true ∧
      (enqueueAudioBuffer q.nextSeqToPlay
      { q with audioBufferMap :=
          insertBuf q.audioBufferMap q.nextSeqToPlay q.nextSeqToPlay }).started
        = q.started ++ [q.nextSeqToPlay] := by
    constructor <;>
      simp [enqueueAudioBuffer, playNextFromQueue, hqueue, hplay, hctx, hmix]
  have hfound := tryPlayInOrder_found
    { q with audioBufferMap :=
        insertBuf q.audioBufferMap q.nextSeqToPlay q.nextSeqToPlay }
    q.nextSeqToPlay (lookupBuf_insertBuf_self _ _ _) hpush.1
  rw [Option.map_some', Option.map_some', hfound.1, hfound.2, hpush.2]
  exact ⟨rfl, rfl⟩

/-! ### Claim theorems for the playback subsystem -/

/-- C1: for every interleaving of inbound media-frame arrivals carrying
sequence numbers `{0..n}` (each payload decoding successfully) with
playback-completion callbacks, the reassembly step enqueues payloads
onto the PlaybackQueue in exactly increasing sequence order starting at
the next-expected counter — the total enqueue history is exactly
`0, 1, …, n` — and the Playback Scheduler sounds payload `k` strictly
before payload `k+1` for all `k`: the start history is always the
length-`q.started.length` initial segment of `0, 1, …, n`, and letting
the chain drain sounds exactly `0, 1, …, n` in that order. -/
theorem reassembly_plays_in_order (n : Nat) (tr : List PlayerEvent) (q : Player)
    (hperm : (eventSeqs tr).Perm (List.range (n + 1)))
    (hnostop : ∀ e ∈ tr, e ≠ PlayerEvent.playbackStop)
    (hrun : playerRun initPlayer tr = some q) :
    q.enqueued = List.range (n + 1) ∧
    q.started = (List.range (n + 1)).take q.started.length ∧
    (drainF (q.playbackQueue.length + 1) q).started = List.range (n + 1) := by
  have hnd : ([] ++ eventSeqs tr).Nodup := by
    simpa using hperm.nodup_iff.mpr (List.nodup_range _)
  have hR := playerRun_RInv tr [] initPlayer q RInv_initPlayer hnd hnostop hrun
  simp only [List.nil_append] at hR
  have hQ := playerRun_quiet tr initPlayer q Quiet_initPlayer hrun
  have hmem : ∀ k, k ∈ eventSeqs tr ↔ k < n + 1 := fun k => by
    rw [hperm.mem_iff, List.mem_range]
  have hnotin : q.nextSeqToPlay ∉ eventSeqs tr := by
    intro hin
    have hsome : (lookupBuf q.audioBufferMap q.nextSeqToPlay).isSome :=
      (hR.buf_key _).mpr ⟨hin, le_refl _⟩
    rw [hQ] at hsome
    cases hsome
  have hub : n + 1 ≤ q.nextSeqToPlay := by
    by_contra hlt
    exact hnotin ((hmem _).mpr (by omega))
  have hlb : q.nextSeqToPlay ≤ n + 1 := by
    by_contra hgt
    have h1 : n + 1 ∈ eventSeqs tr := hR.released (n + 1) (by omega)
    have := (hmem _).mp h1
    omega
  have hnext : q.nextSeqToPlay = n + 1 := by omega
  have henq : q.enqueued = List.range (n + 1) := by
    rw [hR.enq_eq, hnext]
  refine ⟨henq, ?_, ?_⟩
  · have hsplit : List.range (n + 1) = q.started ++ q.playbackQueue := by
      rw [← henq, hR.hist]
    rw [hsplit, List.take_left]
  · have hfuel : q.playbackQueue.length + q.sounding.length ≤
        q.playbackQueue.length + 1 := by
      rcases hR.sinv.sound with ⟨_, h2, _⟩ | ⟨b, _, h2, _⟩ <;> rw [h2] <;> simp
    rw [drainF_started _ q hR.sinv hR.hist hR.idle hfuel, ← hR.hist, henq]

/-- C1 witness: the spec's own reversed-arrival scenario, `seq=1` then
`seq=0`, followed by the two completion callbacks. -/
theorem reassembly_plays_in_order_witness :
    (eventSeqs [PlayerEvent.arrive 1, PlayerEvent.arrive 0,
      PlayerEvent.ended, PlayerEvent.ended]).Perm (List.range 2) ∧
    (∀ e ∈ [PlayerEvent.arrive 1, PlayerEvent.arrive 0,
      PlayerEvent.ended, PlayerEvent.ended], e ≠ PlayerEvent.playbackStop) ∧
    playerRun initPlayer [PlayerEvent.arrive 1, PlayerEvent.arrive 0,
      PlayerEvent.ended, PlayerEvent.ended] = some
      { playbackQueue := [], isPlaying := false, nextSeqToPlay := 2,
        audioBufferMap := [], currentPlaybackSource := none, sounding := [],
        started := [0, 1], enqueued := [0, 1],
        hasAudioContext := true, hasMixerNode := true } ∧
    ({ playbackQueue := [], isPlaying := false, nextSeqToPlay := 2,
       audioBufferMap := [], currentPlaybackSource := none, sounding := [],
       started := [0, 1], enqueued := [0, 1],
       hasAudioContext := true, hasMixerNode := true } : Player).enqueued
      = List.range 2 := by
  refine ⟨by decide, by decide, by decide, ?_⟩
  exact (reassembly_plays_in_order 1
    [PlayerEvent.arrive 1, PlayerEvent.arrive 0,
      PlayerEvent.ended, PlayerEvent.ended]
    { playbackQueue := [], isPlaying := false, nextSeqToPlay := 2,
      audioBufferMap := [], currentPlaybackSource := none, sounding := [],
      started := [0, 1], enqueued := [0, 1],
      hasAudioContext := true, hasMixerNode := true }
    (by decide) (by decide) (by decide)).1

/-! ### The Session Coordinator / Transport lifecycle -/

/-- `WebSocket.readyState` of the socket held in `webSocketRef`
(`opened` stands for the DOM constant `OPEN`, a reserved word here). -/
inductive WsReadyState
  | connecting
  | opened
  | closing
  | closed
  deriving DecidableEq, Repr

/-- `MediaRecorder.state` (the `paused` state is never used by the
component). -/
inductive RecorderRunState
  | recording
  | inactive
  deriving DecidableEq, Repr

/-- `AudioContext.state` as the component observes it. -/
inductive CtxState
  | running
  | closed
  deriving DecidableEq, Repr

/-- `Recording.status : 'success' | 'error' | 'processing'`. -/
inductive RecStatus
  | success
  | error
  | processing
  deriving DecidableEq, Repr

/-- The `Recording` interface (part_000 lines 11–19); `errorMsg` models
the optional `error` field, `hasAudioBlob` whether `audioBlob` is set.
Timestamps and per-recording logs are not modelled. -/
structure Recording where
  id : Nat
  duration : Nat
  status : RecStatus
  hasAudioBlob : Bool
  errorMsg : Option String
  deriving DecidableEq, Repr

/-- The `setTimeout(..., 100)` closure scheduled by `handleStop`
(lines 226–242): it captures the recording id and the frozen final
duration; everything else it reads at fire time. -/
structure PendingUpdate where
  rid : Nat
  finalDuration : Nat
  deriving DecidableEq, Repr

/-- The Session Coordinator state: the component's React state and refs
(lines 29–65), a pending-update list for the deferred success update,
the ghost flag `captureStarted` (did `initFullConversationRecording`
run during the current session), and observation counters for each
release/side-effect action. -/
structure SessionState where
  recordings : List Recording
  isListening : Bool
  isConnecting : Bool
  isConnected : Bool
  /-- the `error` UI state -/
  errorMsg : Option String
  /-- `webSocketRef.current`, abstracted to its ready state -/
  webSocket : Option WsReadyState
  /-- `mediaRecorderRef.current` -/
  mediaRecorder : Option RecorderRunState
  /-- `audioContextRef.current` -/
  audioContext : Option CtxState
  /-- `currentRecordingRef.current`, abstracted to the recording id -/
  currentRecording : Option Nat
  connectionAttemptInProgress : Bool
  /-- `audioChunksRef.current.length` -/
  audioChunks : Nat
  /-- `conversationStartTimeRef.current` (ms) -/
  conversationStartTime : Option Nat
  /-- `conversationDurationRef.current` (s) -/
  conversationDuration : Nat
  cleanupInProgress : Bool
  /-- `durationUpdateIntervalRef.current` is non-null -/
  durationIntervalSet : Bool
  /-- the `connectionTimeout` timer of `initWebSocket` is pending -/
  connectionTimeoutSet : Bool
  playbackQueue : List Nat
  isPlaying : Bool
  nextSeqToPlay : Nat
  audioBufferMap : BufMap
  /-- `currentPlaybackSourceRef.current` is non-null -/
  currentPlaybackSource : Bool
  /-- `micSourceRef.current` is non-null -/
  micSource : Bool
  /-- `mixerNodeRef.current` is non-null -/
  mixerNode : Bool
  /-- `destinationStreamRef.current` is non-null -/
  destinationStream : Bool
  /-- `fullConversationRecorderRef.current` -/
  fullConversationRecorder : Option RecorderRunState
  /-- scheduled `setTimeout` bodies from `handleStop`, oldest first -/
  pendingUpdates : List PendingUpdate
  /-- ghost: `initFullConversationRecording` ran during this session -/
  captureStarted : Bool
  /-- observation counters: `new WebSocket(...)` calls -/
  wsConnects : Nat
  /-- `webSocket.close(...)` calls on a live (OPEN/CONNECTING) socket -/
  wsCloses : Nat
  /-- `fullConversationRecorderRef.current.stop()` calls -/
  fullRecorderStops : Nat
  /-- `mediaRecorderRef.current.stop()` calls -/
  mediaRecorderStops : Nat
  /-- `micSourceRef.current.disconnect()` calls -/
  micDisconnects : Nat
  /-- `mixerNodeRef.current.disconnect()` calls -/
  mixerDisconnects : Nat
  /-- `destinationStreamRef.current.disconnect()` calls -/
  destDisconnects : Nat
  /-- `audioContextRef.current.close()` calls -/
  ctxCloses : Nat
  /-- `currentPlaybackSourceRef.current.stop()` calls from cleanup -/
  sourceStops : Nat
  deriving DecidableEq, Repr

/-- `startDurationTracking` (lines 88–101): clear any old interval,
record the monotonic start timestamp, reset the live duration, arm the
1 Hz interval. -/
def startDurationTracking (now : Nat) (st : SessionState) : SessionState :=
  { st with durationIntervalSet := true,
            conversationStartTime := some now,
            conversationDuration := 0 }

/-- `stopDurationTracking` (lines 103–112): clear the interval and
recompute the duration one final time from the wall clock. -/
def stopDurationTracking (now : Nat) (st : SessionState) : SessionState :=
  let st := { st with durationIntervalSet := false }
  match st.conversationStartTime with
  | some t0 => { st with conversationDuration := (now - t0) / 1000 }
  | none => st

/-- The 1 Hz interval callback of `startDurationTracking`
(lines 96–100). -/
def durationTick (now : Nat) (st : SessionState) : SessionState :=
  if st.durationIntervalSet then
    match st.conversationStartTime with
    | some t0 => { st with conversationDuration := (now - t0) / 1000 }
    | none => st
  else st

/-- `resetAllStates` (lines 114–136). -/
def resetAllStates (now : Nat) (st : SessionState) : SessionState :=
  let st := { st with
    isConnecting := false, isListening := false, isConnected := false,
    errorMsg := none,
    connectionAttemptInProgress := false, cleanupInProgress := false,
    audioChunks := 0, nextSeqToPlay := 0, audioBufferMap := [],
    playbackQueue := [], isPlaying := false }
  let st := stopDurationTracking now st
  { st with conversationStartTime := none, conversationDuration := 0 }

/-- `safelyCloseWebSocket` (lines 268–283): close only a socket in the
OPEN or CONNECTING state (with code 1000), always null the ref. -/
def safelyCloseWebSocket (st : SessionState) : SessionState :=
  match st.webSocket with
  | some rs =>
    let st := if rs = WsReadyState.opened ∨ rs = WsReadyState.connecting
      then { st with wsCloses := st.wsCloses + 1 } else st
    { st with webSocket := none }
  | none => st

/-- `cleanupResources` (lines 556–635): guarded by
`cleanupInProgress`; stops playback, both recorders (when not already
inactive), disconnects mic source, mixer and destination nodes, closes
the audio context (when not already closed) and the socket, then nulls
the refs and empties the queue. -/
def cleanupResources (now : Nat) (st : SessionState) : SessionState :=
  if st.cleanupInProgress then st
  else
    let st := { st with cleanupInProgress := true }
    let st := stopDurationTracking now st
    let st := if st.currentPlaybackSource then
        { st with sourceStops := st.sourceStops + 1,
                  currentPlaybackSource := false }
      else st
    let st := match st.fullConversationRecorder with
      | some RecorderRunState.recording =>
        { st with fullConversationRecorder := some RecorderRunState.inactive,
                  fullRecorderStops := st.fullRecorderStops + 1 }
      | _ => st
    let st := match st.mediaRecorder with
      | some RecorderRunState.recording =>
        { st with mediaRecorder := some RecorderRunState.inactive,
                  mediaRecorderStops := st.mediaRecorderStops + 1 }
      | _ => st
    let st := if st.micSource then
        { st with micDisconnects := st.micDisconnects + 1, micSource := false }
      else st
    let st := if st.mixerNode then
        { st with mixerDisconnects := st.mixerDisconnects + 1,
                  mixerNode := false }
      else st
    let st := if st.destinationStream then
        { st with destDisconnects := st.destDisconnects + 1,
                  destinationStream := false }
      else st
    let st := match st.audioContext with
      | some CtxState.running =>
        { st with audioContext := some CtxState.closed,
                  ctxCloses := st.ctxCloses + 1 }
      | _ => st
    let st := safelyCloseWebSocket st
    { st with fullConversationRecorder := none, mediaRecorder := none,
              audioContext := none, playbackQueue := [], isPlaying := false }

/-- `stopListening` (lines 637–640). -/
def stopListening (now : Nat) (st : SessionState) : SessionState :=
  resetAllStates now (cleanupResources now st)

/-- `handleConnectionFailure` (lines 138–157): mark the current
recording (if any) as failed, carrying the error description and the
current live duration value, then clean up and reset. -/
def handleConnectionFailure (now : Nat) (msg : String) (st : SessionState) :
    SessionState :=
  let st := match st.currentRecording with
    | some rid =>
      { st with
        recordings := st.recordings.map (fun r =>
          if r.id = rid then
            { r with status := RecStatus.error, errorMsg := some msg,
                     duration := st.conversationDuration }
          else r),
        currentRecording := none }
    | none => st
  resetAllStates now (cleanupResources now st)

/-- `handleWebSocketError` (lines 249–266): close a live socket, null
the ref, then run the connection-failure path. -/
def handleWebSocketError (now : Nat) (msg : String) (st : SessionState) :
    SessionState :=
  let st := match st.webSocket with
    | some rs =>
      let st := if rs = WsReadyState.opened ∨ rs = WsReadyState.connecting
        then { st with wsCloses := st.wsCloses + 1 } else st
      { st with webSocket := none }
    | none => st
  handleConnectionFailure now msg st

/-- `handleStop` (lines 204–247).  The `duration` argument the UI passes
is unused by the source (it reads the refs), so it is omitted here.  The
success update is deferred 100 ms: it is appended to `pendingUpdates`
with the captured id and frozen duration, to be applied later by
`firePendingUpdate`. -/
def handleStop (now : Nat) (st : SessionState) : SessionState :=
  if st.cleanupInProgress then st
  else
    let st := stopDurationTracking now st
    let st := match st.fullConversationRecorder with
      | some RecorderRunState.recording =>
        { st with fullConversationRecorder := some RecorderRunState.inactive,
                  fullRecorderStops := st.fullRecorderStops + 1 }
      | _ => st
    let st := match st.mediaRecorder with
      | some RecorderRunState.recording =>
        { st with mediaRecorder := some RecorderRunState.inactive,
                  mediaRecorderStops := st.mediaRecorderStops + 1 }
      | _ => st
    let st := match st.currentRecording with
      | some rid =>
        { st with pendingUpdates := st.pendingUpdates ++
            [PendingUpdate.mk rid st.conversationDuration] }
      | none => st
    let st := { st with currentRecording := none }
    stopListening now st

/-- The body of the `setTimeout` scheduled by `handleStop`
(lines 226–242), run at fire time: it reads `audioChunksRef.current`
*now*, attaches the blob only if chunks survive, and applies the
captured frozen duration and the success status. -/
def firePendingUpdate (st : SessionState) : SessionState :=
  match st.pendingUpdates with
  | [] => st
  | u :: rest =>
    if st.audioChunks > 0 then
      { st with
        recordings := st.recordings.map (fun r =>
          if r.id = u.rid then
            { r with duration := u.finalDuration,
                     status := RecStatus.success, hasAudioBlob := true }
          else r),
        pendingUpdates := rest }
    else
      { st with
        recordings := st.recordings.map (fun r =>
          if r.id = u.rid then
            { r with duration := u.finalDuration,
                     status := RecStatus.success }
          else r),
        pendingUpdates := rest }

/-- The synchronous part of `initWebSocket` (lines 285–312): close any
stale socket, construct the new one (state CONNECTING) and arm the 10 s
connection timeout. -/
def initWebSocket (st : SessionState) : SessionState :=
  let st := safelyCloseWebSocket st
  { st with webSocket := some WsReadyState.connecting,
            wsConnects := st.wsConnects + 1,
            connectionTimeoutSet := true }

/-- `handleStart` (lines 159–202): the guard, the per-session resets,
duration tracking, the new processing `Recording` prepended to the last
nine, and the connection attempt.  `rid` stands for the generated
`crypto.randomUUID()`.  Resetting the ghost `captureStarted` marks the
session boundary for the capture-pipeline observation. -/
def handleStart (now : Nat) (rid : Nat) (st : SessionState) : SessionState :=
  if st.isConnecting || st.isListening || st.connectionAttemptInProgress then st
  else
    let st := { st with
      connectionAttemptInProgress := true, cleanupInProgress := false,
      errorMsg := none, isConnecting := true, isConnected := false,
      audioChunks := 0, nextSeqToPlay := 0, audioBufferMap := [],
      playbackQueue := [], isPlaying := false }
    let st := startDurationTracking now st
    let st := { st with
      currentRecording := some rid,
      recordings :=
        { id := rid, duration := 0, status := RecStatus.processing,
          hasAudioBlob := false, errorMsg := none } :: st.recordings.take 9,
      captureStarted := false }
    initWebSocket st

/-- The `connectionTimeout` callback of `initWebSocket`
(lines 305–312): if the socket still exists and is still CONNECTING
after 10 s, abort it and run the same path as a transport error. -/
def connectionTimeoutFire (now : Nat) (st : SessionState) : SessionState :=
  if st.connectionTimeoutSet then
    let st := { st with connectionTimeoutSet := false }
    match st.webSocket with
    | some WsReadyState.connecting =>
      handleWebSocketError now "WebSocket connection timeout"
        (safelyCloseWebSocket st)
    | _ => st
  else st

/-- `initFullConversationRecording` (lines 453–554), abstracted to its
resource effects: on microphone success the audio graph (context, mixer,
destination, mic source) and both recorders come up; on failure the
error propagates to the caller (`none`). -/
def initFullConversationRecording (micOk : Bool) (st : SessionState) :
    Option SessionState :=
  if micOk then
    some { st with
      audioContext := some CtxState.running,
      mixerNode := true,
      destinationStream := true,
      micSource := true,
      fullConversationRecorder := some RecorderRunState.recording,
      mediaRecorder := some RecorderRunState.recording,
      captureStarted := true }
  else
    none

/-- The `onopen` handler (lines 314–326): clear the timeout, flip the
connection flags, then start the capture pipeline; a microphone failure
runs the websocket-error path. -/
def wsOnOpen (now : Nat) (micOk : Bool) (st : SessionState) : SessionState :=
  let st := { st with
    connectionTimeoutSet := false,
    isConnecting := false, isListening := true, isConnected := true,
    connectionAttemptInProgress := false,
    webSocket := some WsReadyState.opened }
  match initFullConversationRecording micOk st with
  | some st' => st'
  | none =>
    handleWebSocketError now "Failed to initialize audio recording" st

/-- The `onclose` handler (lines 328–343): clear the timeout, null the
ref; a close that is not clean *and* has a non-1000 code runs the
connection-failure path, every other close merely resets the states. -/
def wsOnClose (now : Nat) (code : Nat) (wasClean : Bool) (reason : String)
    (st : SessionState) : SessionState :=
  let st := { st with connectionTimeoutSet := false, webSocket := none }
  if wasClean = false ∧ code ≠ 1000 then
    handleConnectionFailure now ("Connection lost unexpectedly: " ++ reason) st
  else
    resetAllStates now st

/-- The `onerror` handler (lines 345–350). -/
def wsOnError (now : Nat) (st : SessionState) : SessionState :=
  let st := { st with connectionTimeoutSet := false }
  handleWebSocketError now "WebSocket connection failed due to network error" st

/-- The `end_call` message branch of `onmessage` (lines 375–379). -/
def endCallMessage (now : Nat) (st : SessionState) : SessionState :=
  handleStop now (safelyCloseWebSocket st)

/-- A recording entry still in `processing` status, as created by
`handleStart`. -/
def procRec : Recording :=
  { id := 7
    duration := 0
    status := RecStatus.processing
    hasAudioBlob := false
    errorMsg := none }

/-- A fully active session: socket OPEN, both recorders recording, the
audio graph up, three captured chunks, the live duration last computed
as 4 s from a start at 1000 ms. -/
def activeSession : SessionState :=
  { recordings := [procRec]
    isListening := true
    isConnecting := false
    isConnected := true
    errorMsg := none
    webSocket := some WsReadyState.opened
    mediaRecorder := some RecorderRunState.recording
    audioContext := some CtxState.running
    currentRecording := some 7
    connectionAttemptInProgress := false
    audioChunks := 3
    conversationStartTime := some 1000
    conversationDuration := 4
    cleanupInProgress := false
    durationIntervalSet := true
    connectionTimeoutSet := false
    playbackQueue := []
    isPlaying := false
    nextSeqToPlay := 0
    audioBufferMap := []
    currentPlaybackSource := true
    micSource := true
    mixerNode := true
    destinationStream := true
    fullConversationRecorder := some RecorderRunState.recording
    pendingUpdates := []
    captureStarted := true
    wsConnects := 1
    wsCloses := 0
    fullRecorderStops := 0
    mediaRecorderStops := 0
    micDisconnects := 0
    mixerDisconnects := 0
    destDisconnects := 0
    ctxCloses := 0
    sourceStops := 0 }

/-- The idle session state before `start()` is accepted. -/
def idleSession : SessionState :=
  { activeSession with
    isListening := false
    isConnected := false
    webSocket := none
    mediaRecorder := none
    audioContext := none
    micSource := false
    mixerNode := false
    destinationStream := false
    fullConversationRecorder := none
    currentPlaybackSource := false
    currentRecording := none
    captureStarted := false
    durationIntervalSet := false
    conversationStartTime := none
    conversationDuration := 0
    audioChunks := 0
    recordings := [] }

/-- The shape of a live session as the handlers see it: the re-entrant
guard clear, the monotonic start timestamp recorded, a current recording
in flight, both recorders recording, the audio graph up, the socket
OPEN. -/
structure ActiveShape (st : SessionState) (t0 rid : Nat) : Prop where
  clean : st.cleanupInProgress = false
  start : st.conversationStartTime = some t0
  cur : st.currentRecording = some rid
  full : st.fullConversationRecorder = some RecorderRunState.recording
  media : st.mediaRecorder = some RecorderRunState.recording
  mic : st.micSource = true
  mixer : st.mixerNode = true
  dest : st.destinationStream = true
  ctx : st.audioContext = some CtxState.running
  ws : st.webSocket = some WsReadyState.opened
  src : st.currentPlaybackSource = true

/-- The shape of the idle state from which `start()` is accepted: no
session in flight and every resource ref null. -/
structure IdleShape (st : SessionState) : Prop where
  connecting : st.isConnecting = false
  listening : st.isListening = false
  attempt : st.connectionAttemptInProgress = false
  ws : st.webSocket = none
  full : st.fullConversationRecorder = none
  media : st.mediaRecorder = none
  ctx : st.audioContext = none
  mic : st.micSource = false
  mixer : st.mixerNode = false
  dest : st.destinationStream = false
  src : st.currentPlaybackSource = false

/-! ### Claim theorems for the session lifecycle -/

/-- C5: `start()` invoked while already connecting or listening, or
while a connection attempt is in flight (the guard ref), is a rejected
no-op: the state is unchanged — in particular no new `Recording` is
created and no second socket is constructed. -/
theorem start_guard_rejects (now rid : Nat) (st : SessionState)
    (h : st.isConnecting = true ∨ st.isListening = true ∨
      st.connectionAttemptInProgress = true) :
    handleStart now rid st = st ∧
    (handleStart now rid st).recordings = st.recordings ∧
    (handleStart now rid st).wsConnects = st.wsConnects := by
  have hg : handleStart now rid st = st := by
    rcases h with h | h | h <;> simp [handleStart, h]
  exact ⟨hg, by rw [hg], by rw [hg]⟩

/-- C5 witness: `start()` during an active session changes nothing. -/
theorem start_guard_rejects_witness :
    activeSession.isListening = true ∧
    handleStart 9000 9 activeSession = activeSession ∧
    (handleStart 9000 9 activeSession).recordings = activeSession.recordings ∧
    (handleStart 9000 9 activeSession).wsConnects = activeSession.wsConnects :=
  ⟨rfl, start_guard_rejects 9000 9 activeSession (Or.inr (Or.inl rfl))⟩

/-- Evaluation of `handleStop` on a live session: the duration is
recomputed (frozen) from the wall clock, the terminal success update is
scheduled with the frozen value, each resource is released once, and
every per-session state is reset. -/
theorem handleStop_active (t1 : Nat) (st : SessionState) (t0 rid : Nat)
    (h : ActiveShape st t0 rid) :
    handleStop t1 st = { st with
      isConnecting := false, isListening := false, isConnected := false,
      errorMsg := none,
      webSocket := none,
      mediaRecorder := none,
      audioContext := none,
      currentRecording := none,
      connectionAttemptInProgress := false,
      audioChunks := 0,
      conversationStartTime := none,
      conversationDuration := 0,
      cleanupInProgress := false,
      durationIntervalSet := false,
      playbackQueue := [], isPlaying := false, nextSeqToPlay := 0,
      audioBufferMap := [],
      currentPlaybackSource := false,
      micSource := false, mixerNode := false, destinationStream := false,
      fullConversationRecorder := none,
      pendingUpdates :=
        st.pendingUpdates ++ [PendingUpdate.mk rid ((t1 - t0) / 1000)],
      wsCloses := st.wsCloses + 1,
      fullRecorderStops := st.fullRecorderStops + 1,
      mediaRecorderStops := st.mediaRecorderStops + 1,
      micDisconnects := st.micDisconnects + 1,
      mixerDisconnects := st.mixerDisconnects + 1,
      destDisconnects := st.destDisconnects + 1,
      ctxCloses := st.ctxCloses + 1,
      sourceStops := st.sourceStops + 1 } := by
  simp [handleStop, stopListening, cleanupResources, resetAllStates,
    stopDurationTracking, safelyCloseWebSocket, h.clean, h.start, h.cur,
    h.full, h.media, h.mic, h.mixer, h.dest, h.ctx, h.ws, h.src]

/-- C2: two `stop()` calls in immediate succession schedule exactly one
terminal recording-status update and release each owned resource (both
recorders, mic source, mixer node, destination node, audio context,
WebSocket) exactly once; the second call changes nothing at all; and
while teardown is in progress the re-entrant cleanup guard makes
`stop()` a no-op. -/
theorem stop_idempotent (t1 t2 n : Nat) (st u : SessionState) (t0 rid : Nat)
    (h : ActiveShape st t0 rid) (hu : u.cleanupInProgress = true) :
    (handleStop t2 (handleStop t1 st)).pendingUpdates =
      st.pendingUpdates ++ [PendingUpdate.mk rid ((t1 - t0) / 1000)] ∧
    (handleStop t2 (handleStop t1 st)).fullRecorderStops =
      st.fullRecorderStops + 1 ∧
    (handleStop t2 (handleStop t1 st)).mediaRecorderStops =
      st.mediaRecorderStops + 1 ∧
    (handleStop t2 (handleStop t1 st)).micDisconnects =
      st.micDisconnects + 1 ∧
    (handleStop t2 (handleStop t1 st)).mixerDisconnects =
      st.mixerDisconnects + 1 ∧
    (handleStop t2 (handleStop t1 st)).destDisconnects =
      st.destDisconnects + 1 ∧
    (handleStop t2 (handleStop t1 st)).ctxCloses = st.ctxCloses + 1 ∧
    (handleStop t2 (handleStop t1 st)).wsCloses = st.wsCloses + 1 ∧
    handleStop t2 (handleStop t1 st) = handleStop t1 st ∧
    handleStop n u = u := by
  have h1 := handleStop_active t1 st t0 rid h
  have h2 : handleStop t2 (handleStop t1 st) = handleStop t1 st := by
    rw [h1]
    simp [handleStop, stopListening, cleanupResources, resetAllStates,
      stopDurationTracking, safelyCloseWebSocket]
  refine ⟨?_, ?_, ?_, ?_, ?_, ?_, ?_, ?_, h2, by simp [handleStop, hu]⟩ <;>
    rw [h2, h1]

/-- C2 witness: double stop on the concrete active session. -/
theorem stop_idempotent_witness :
    (handleStop 6100 (handleStop 6000 activeSession)).pendingUpdates =
      activeSession.pendingUpdates ++ [PendingUpdate.mk 7 ((6000 - 1000) / 1000)] ∧
    (handleStop 6100 (handleStop 6000 activeSession)).wsCloses =
      activeSession.wsCloses + 1 ∧
    handleStop 6100 (handleStop 6000 activeSession) =
      handleStop 6000 activeSession := by
  have h := stop_idempotent 6000 6100 0 activeSession
    { activeSession with cleanupInProgress := true } 1000 7
    ⟨rfl, rfl, rfl, rfl, rfl, rfl, rfl, rfl, rfl, rfl, rfl⟩ rfl
  exact ⟨h.1, h.2.2.2.2.2.2.2.1, h.2.2.2.2.2.2.2.2.1⟩

/-- C6: the duration attached to the finished recording is frozen at
the moment `stop()` is processed, as the whole-second wall-clock delta
from session start; later ticks and the state reset do not change the
scheduled value, and the update that fires later applies exactly the
frozen duration.  On the failure path the entry is tagged with the live
duration value, which equals the same wall-clock delta whenever the
1 Hz tracking is current. -/
theorem duration_frozen (now n2 : Nat) (msg : String) (st : SessionState)
    (t0 rid : Nat) (r0 : Recording) (h : ActiveShape st t0 rid)
    (hpend : st.pendingUpdates = [])
    (hr0 : r0 ∈ st.recordings) (hid : r0.id = rid)
    (hlive : st.conversationDuration = (now - t0) / 1000) :
    (handleStop now st).pendingUpdates =
      [PendingUpdate.mk rid ((now - t0) / 1000)] ∧
    (durationTick n2 (handleStop now st)).pendingUpdates =
      (handleStop now st).pendingUpdates ∧
    (resetAllStates n2 (handleStop now st)).pendingUpdates =
      (handleStop now st).pendingUpdates ∧
    { r0 with duration := (now - t0) / 1000, status := RecStatus.success } ∈
      (firePendingUpdate (durationTick n2 (handleStop now st))).recordings ∧
    { r0 with status := RecStatus.error, errorMsg := some msg,
              duration := (now - t0) / 1000 } ∈
      (handleConnectionFailure now msg st).recordings := by
  have h1 := handleStop_active now st t0 rid h
  refine ⟨?_, ?_, ?_, ?_, ?_⟩
  · rw [h1]
    simp [hpend]
  · rw [h1]
    simp [durationTick]
  · rw [h1]
    simp [resetAllStates, stopDurationTracking]
  · rw [h1]
    simp [durationTick, firePendingUpdate, hpend, List.mem_map]
    exact ⟨r0, hr0, by simp [hid]⟩
  · simp [handleConnectionFailure, stopListening, cleanupResources,
      resetAllStates, stopDurationTracking, safelyCloseWebSocket, h.clean,
      h.cur, h.full, h.media, h.mic, h.mixer, h.dest, h.ctx, h.ws, h.src,
      h.start, hlive, List.mem_map]
    exact ⟨r0, hr0, by simp [hid]⟩

/-- C6 witness: `stop()` at 5999 ms after a start at 1000 ms freezes
4 s, which is what the deferred update applies. -/
theorem duration_frozen_witness :
    activeSession.conversationDuration = (5999 - 1000) / 1000 ∧
    (handleStop 5999 activeSession).pendingUpdates =
      [PendingUpdate.mk 7 ((5999 - 1000) / 1000)] ∧
    { procRec with duration := (5999 - 1000) / 1000,
                   status := RecStatus.success } ∈
      (firePendingUpdate
        (durationTick 7000 (handleStop 5999 activeSession))).recordings := by
  have h := duration_frozen 5999 7000 "boom" activeSession 1000 7 procRec
    ⟨rfl, rfl, rfl, rfl, rfl, rfl, rfl, rfl, rfl, rfl, rfl⟩ rfl
    (by decide) rfl (by decide)
  exact ⟨by decide, h.1, h.2.2.2.1⟩

/-- C3 counterexample: a session-ending failure on a live session with
three captured segments (`audioChunks = 3 > 0`) produces a terminal
`error` entry that carries *no* audio artifact (`hasAudioBlob = false`),
and the captured segments are discarded (`audioChunks = 0` afterwards),
contradicting "the terminal 'failed' recording entry still carries the
sealed audio artifact built from the segments captured so far". -/
theorem failure_drops_audio_counterexample :
    activeSession.audioChunks = 3 ∧
    (handleConnectionFailure 6000 "boom" activeSession).recordings =
      [{ id := 7, duration := 4, status := RecStatus.error,
         hasAudioBlob := false, errorMsg := some "boom" }] ∧
    (handleConnectionFailure 6000 "boom" activeSession).audioChunks = 0 ∧
    (handleConnectionFailure 6000 "boom" activeSession).pendingUpdates = [] := by
  refine ⟨rfl, ?_, ?_, ?_⟩ <;> decide

/-- C3 amended: on a session-ending failure the terminal entry is
marked `error`, tagged with the error description and the live duration
value — but no audio artifact is attached to it (its `audioBlob` field
is left as it was, never set), and the captured segments are cleared
during teardown rather than sealed into a blob; no success update is
scheduled either. -/
theorem failure_keeps_error_not_audio (now : Nat) (msg : String)
    (st : SessionState) (t0 rid : Nat) (r0 : Recording)
    (h : ActiveShape st t0 rid) (hr0 : r0 ∈ st.recordings) (hid : r0.id = rid) :
    { r0 with status := RecStatus.error, errorMsg := some msg,
              duration := st.conversationDuration } ∈
      (handleConnectionFailure now msg st).recordings ∧
    (handleConnectionFailure now msg st).audioChunks = 0 ∧
    (handleConnectionFailure now msg st).pendingUpdates = st.pendingUpdates := by
  refine ⟨?_, ?_, ?_⟩ <;>
    simp [handleConnectionFailure, stopListening, cleanupResources,
      resetAllStates, stopDurationTracking, safelyCloseWebSocket, h.clean,
      h.cur, h.full, h.media, h.mic, h.mixer, h.dest, h.ctx, h.ws, h.src,
      h.start, List.mem_map]
  exact ⟨r0, hr0, by simp [hid]⟩

/-- C3 amended witness: the concrete failure run. -/
theorem failure_keeps_error_not_audio_witness :
    { procRec with status := RecStatus.error, errorMsg := some "boom",
                   duration := activeSession.conversationDuration } ∈
      (handleConnectionFailure 6000 "boom" activeSession).recordings ∧
    (handleConnectionFailure 6000 "boom" activeSession).audioChunks = 0 :=
  have h := failure_keeps_error_not_audio 6000 "boom" activeSession 1000 7
    procRec ⟨rfl, rfl, rfl, rfl, rfl, rfl, rfl, rfl, rfl, rfl, rfl⟩
    (by decide) rfl
  ⟨h.1, h.2.1⟩

/-- C4 counterexample: a closure that is clean (`wasClean = true`) but
carries the non-1000 code 1011 is *not* routed through the failure path:
the in-flight recording stays `processing`, no error entry and no
terminal event is produced — contradicting "every other closure is
classified as a connection failure … and produces a terminal 'failed'
error event".  The code only treats `¬wasClean ∧ code ≠ 1000` as
failure. -/
theorem nonclean_close_counterexample :
    (1011 : Nat) ≠ 1000 ∧
    (wsOnClose 6000 1011 true "going away" activeSession).recordings =
      [procRec] ∧
    procRec.status = RecStatus.processing ∧
    (wsOnClose 6000 1011 true "going away" activeSession).pendingUpdates
      = [] := by
  refine ⟨by decide, ?_, rfl, ?_⟩ <;> decide

/-- C4 amended: a closure runs the failure teardown path and produces a
terminal `error` entry exactly when it is not clean *and* its code is
not 1000; every other closure (clean, or code 1000) merely resets the
per-session state, leaving the recordings and the scheduled updates
untouched. -/
theorem close_classification (now code : Nat) (wasClean : Bool)
    (reason : String) (st : SessionState) (t0 rid : Nat) (r0 : Recording)
    (h : ActiveShape st t0 rid) (hr0 : r0 ∈ st.recordings)
    (hid : r0.id = rid) :
    (wasClean = false → code ≠ 1000 →
      { r0 with status := RecStatus.error,
                errorMsg := some ("Connection lost unexpectedly: " ++ reason),
                duration := st.conversationDuration } ∈
        (wsOnClose now code wasClean reason st).recordings) ∧
    (wasClean = true ∨ code = 1000 →
      (wsOnClose now code wasClean reason st).recordings = st.recordings ∧
      (wsOnClose now code wasClean reason st).pendingUpdates
        = st.pendingUpdates) := by
  constructor
  · intro hwc hcode
    simp [wsOnClose, hwc, hcode, handleConnectionFailure, stopListening,
      cleanupResources, resetAllStates, stopDurationTracking,
      safelyCloseWebSocket, h.clean, h.cur, h.full, h.media, h.mic, h.mixer,
      h.dest, h.ctx, h.src, h.start, List.mem_map]
    exact ⟨r0, hr0, by simp [hid]⟩
  · intro hclean
    have hcond : ¬ (wasClean = false ∧ code ≠ 1000) := by
      rcases hclean with hc | hc <;> simp [hc]
    constructor <;>
      simp [wsOnClose, hcond, resetAllStates, stopDurationTracking, h.start]

/-- C4 amended witness: an unclean code-1006 close marks the recording
failed; a clean close leaves it untouched. -/
theorem close_classification_witness :
    { procRec with status := RecStatus.error,
                   errorMsg := some ("Connection lost unexpectedly: " ++ "lost"),
                   duration := activeSession.conversationDuration } ∈
      (wsOnClose 6000 1006 false "lost" activeSession).recordings ∧
    (wsOnClose 6000 1000 true "bye" activeSession).recordings =
      activeSession.recordings :=
  have h1 := close_classification 6000 1006 false "lost" activeSession 1000 7
    procRec ⟨rfl, rfl, rfl, rfl, rfl, rfl, rfl, rfl, rfl, rfl, rfl⟩
    (by decide) rfl
  have h2 := close_classification 6000 1000 true "bye" activeSession 1000 7
    procRec ⟨rfl, rfl, rfl, rfl, rfl, rfl, rfl, rfl, rfl, rfl, rfl⟩
    (by decide) rfl
  ⟨h1.1 rfl (by decide), (h2.2 (Or.inl rfl)).1⟩

/-- C10: a clean close (`wasClean`, code 1000) that arrives while a
recording is still in flight — no `end_call` was processed and no local
`stop()` ran, which is exactly when `currentRecordingRef` is still set —
resets the per-session state but emits no terminal event: the
recordings list is untouched (the entry stays `processing`), nothing is
scheduled, so no artifact or final duration is ever attached; firing
the (empty) update queue changes nothing. -/
theorem clean_close_no_terminal (now : Nat) (reason : String)
    (st : SessionState) (t0 rid : Nat) (h : ActiveShape st t0 rid)
    (hpend : st.pendingUpdates = []) :
    (wsOnClose now 1000 true reason st).recordings = st.recordings ∧
    (wsOnClose now 1000 true reason st).pendingUpdates = [] ∧
    (wsOnClose now 1000 true reason st).currentRecording = some rid ∧
    (wsOnClose now 1000 true reason st).isListening = false ∧
    (wsOnClose now 1000 true reason st).isConnected = false ∧
    (wsOnClose now 1000 true reason st).webSocket = none ∧
    (wsOnClose now 1000 true reason st).conversationStartTime = none ∧
    firePendingUpdate (wsOnClose now 1000 true reason st) =
      wsOnClose now 1000 true reason st := by
  have hw : wsOnClose now 1000 true reason st =
      resetAllStates now { st with connectionTimeoutSet := false,
                                   webSocket := none } := by
    simp [wsOnClose]
  rw [hw]
  refine ⟨?_, ?_, ?_, ?_, ?_, ?_, ?_, ?_⟩ <;>
    simp [resetAllStates, stopDurationTracking, firePendingUpdate, h.start,
      h.cur, hpend]

/-- C10 witness: the concrete clean close mid-session. -/
theorem clean_close_no_terminal_witness :
    (wsOnClose 6000 1000 true "bye" activeSession).recordings =
      activeSession.recordings ∧
    (wsOnClose 6000 1000 true "bye" activeSession).pendingUpdates = [] ∧
    (wsOnClose 6000 1000 true "bye" activeSession).currentRecording = some 7 :=
  have h := clean_close_no_terminal 6000 "bye" activeSession 1000 7
    ⟨rfl, rfl, rfl, rfl, rfl, rfl, rfl, rfl, rfl, rfl, rfl⟩ rfl
  ⟨h.1, h.2.1, h.2.2.1⟩

/-- C8: after an accepted `start()`, the socket is CONNECTING and the
10 s timeout is armed; if the timeout fires while the socket is still
CONNECTING, the attempt is aborted (the socket is closed exactly once
and the ref nulled), the same `handleWebSocketError` path as a
transport-level error runs, the new session's recording is marked
failed with the timeout-classified error — and the capture pipeline is
never started for that session. -/
theorem connect_timeout_no_capture (t1 t2 rid : Nat) (st : SessionState)
    (h : IdleShape st) :
    (handleStart t1 rid st).webSocket = some WsReadyState.connecting ∧
    (handleStart t1 rid st).connectionTimeoutSet = true ∧
    (handleStart t1 rid st).captureStarted = false ∧
    connectionTimeoutFire t2 (handleStart t1 rid st) =
      handleWebSocketError t2 "WebSocket connection timeout"
        (safelyCloseWebSocket
          { handleStart t1 rid st with connectionTimeoutSet := false }) ∧
    (connectionTimeoutFire t2 (handleStart t1 rid st)).webSocket = none ∧
    (connectionTimeoutFire t2 (handleStart t1 rid st)).wsCloses =
      st.wsCloses + 1 ∧
    (connectionTimeoutFire t2 (handleStart t1 rid st)).captureStarted
      = false ∧
    ({ id := rid, duration := 0, status := RecStatus.error,
       hasAudioBlob := false,
       errorMsg := some "WebSocket connection timeout" } : Recording) ∈
      (connectionTimeoutFire t2 (handleStart t1 rid st)).recordings := by
  have hstart : handleStart t1 rid st = { st with
      connectionAttemptInProgress := true, cleanupInProgress := false,
      errorMsg := none, isConnecting := true, isConnected := false,
      audioChunks := 0, nextSeqToPlay := 0, audioBufferMap := [],
      playbackQueue := [], isPlaying := false,
      durationIntervalSet := true, conversationStartTime := some t1,
      conversationDuration := 0,
      currentRecording := some rid,
      recordings :=
        { id := rid, duration := 0, status := RecStatus.processing,
          hasAudioBlob := false, errorMsg := none } :: st.recordings.take 9,
      captureStarted := false,
      webSocket := some WsReadyState.connecting,
      wsConnects := st.wsConnects + 1,
      connectionTimeoutSet := true } := by
    simp [handleStart, h.connecting, h.listening, h.attempt,
      startDurationTracking, initWebSocket, safelyCloseWebSocket, h.ws]
  rw [hstart]
  refine ⟨rfl, rfl, rfl, ?_, ?_, ?_, ?_, ?_⟩
  · simp [connectionTimeoutFire]
  all_goals
    simp [connectionTimeoutFire, handleWebSocketError,
      handleConnectionFailure, stopListening, cleanupResources,
      resetAllStates, stopDurationTracking, safelyCloseWebSocket,
      h.full, h.media, h.mic, h.mixer, h.dest, h.ctx, h.src]

/-- C8 witness: start from the idle state, then the timeout fires. -/
theorem connect_timeout_no_capture_witness :
    (handleStart 50 9 idleSession).webSocket =
      some WsReadyState.connecting ∧
    (connectionTimeoutFire 10050 (handleStart 50 9 idleSession)).webSocket
      = none ∧
    (connectionTimeoutFire 10050 (handleStart 50 9 idleSession)).captureStarted
      = false ∧
    ({ id := 9, duration := 0, status := RecStatus.error,
       hasAudioBlob := false,
       errorMsg := some "WebSocket connection timeout" } : Recording) ∈
      (connectionTimeoutFire 10050 (handleStart 50 9 idleSession)).recordings :=
  have h := connect_timeout_no_capture 50 10050 9 idleSession
    ⟨rfl, rfl, rfl, rfl, rfl, rfl, rfl, rfl, rfl, rfl, rfl⟩
  ⟨h.1, h.2.2.2.2.1, h.2.2.2.2.2.2.1, h.2.2.2.2.2.2.2⟩

/-! ### The playback subsystem with late completion callbacks

Per the Web Audio API, an `AudioBufferSourceNode` fires its `ended`
event whenever it stops playing — *including* when `stop()` is called
on it.  The component installs `source.onended` (lines 443–448) and the
playback-stop branch (lines 369–372) calls `source.stop()`, so a
stopped source's completion handler still runs later.  `LPlayer` makes
this explicit: it reuses the `Player` core (the same
`playNextFromQueue` / `enqueueAudioBuffer` / `tryPlayInOrder`
functions) and tracks, via `endedFired`, which started sources have
already run their `onended` handler — every source in `started` but
not in `endedFired` still has a completion callback pending, whether or
not it is still audible. -/
structure LPlayer where
  core : Player
  /-- started sources whose `onended` handler has already run -/
  endedFired : List Nat
  deriving DecidableEq, Repr

/-- Events of the faithful playback machine: frame arrivals, the
`onended` handler of a specific started source firing (once per
source), and the server stop command. -/
inductive LEvent
  | arrive (seq : Nat)
  | endedFire (s : Nat)
  | playbackStop
  deriving DecidableEq, Repr

/-- One event step.  `endedFire s` is enabled for any started source
whose handler has not yet run — a source halted by `stop()` included;
its body is the `onended` handler (lines 443–448): null the current-
source ref, clear the playing flag, call `playNextFromQueue` — run
unconditionally, whichever source `s` the event belongs to.  A source
firing `ended` is no longer audible, hence the erase from `sounding`
(a no-op if `s` had already been halted by `stop()`). -/
def lplayerStep (p : LPlayer) : LEvent → Option LPlayer
  | .arrive seq =>
    if p.core.hasAudioContext then
      some { p with
             core := tryPlayInOrder { p.core with audioBufferMap := insertBuf p.core.audioBufferMap seq seq } }
    else
      some p
  | .endedFire s =>
    if s ∈ p.core.started ∧ s ∉ p.endedFired then
      some { core := playNextFromQueue { p.core with sounding := p.core.sounding.erase s, currentPlaybackSource := none, isPlaying := false },
             endedFired := s :: p.endedFired }
    else none
  | .playbackStop =>
    -- lines 366–374: `stop()` halts the tracked source (it stops being
    -- audible) but its pending `onended` remains: `endedFired` is
    -- untouched
    let c :=
      match p.core.currentPlaybackSource with
      | some b =>
        { p.core with sounding := p.core.sounding.erase b,
                      currentPlaybackSource := none }
      | none => p.core
    some { p with core := { c with isPlaying := false, playbackQueue := [] } }

/-- Run a list of events on the faithful machine. -/
def lplayerRun (p : LPlayer) : List LEvent → Option LPlayer
  | [] => some p
  | e :: tr =>
    match lplayerStep p e with
    | none => none
    | some p' => lplayerRun p' tr

/-- The faithful machine's state at session start. -/
def initLPlayer : LPlayer :=
  { core := initPlayer, endedFired := [] }

/-- The scheduler never touches the audio-graph presence flags. -/
theorem playNextFromQueue_graph (p : Player) :
    (playNextFromQueue p).hasAudioContext = p.hasAudioContext ∧
    (playNextFromQueue p).hasMixerNode = p.hasMixerNode := by
  unfold playNextFromQueue
  split
  · exact ⟨rfl, rfl⟩
  · split <;> exact ⟨rfl, rfl⟩

/-- Enqueueing never touches the audio-graph presence flags. -/
theorem enqueueAudioBuffer_graph (b : Nat) (p : Player) :
    (enqueueAudioBuffer b p).hasAudioContext = p.hasAudioContext ∧
    (enqueueAudioBuffer b p).hasMixerNode = p.hasMixerNode := by
  unfold enqueueAudioBuffer playNextFromQueue
  dsimp only
  split
  · exact ⟨rfl, rfl⟩
  · split
    · exact ⟨rfl, rfl⟩
    · split <;> exact ⟨rfl, rfl⟩

/-- The release loop never touches the audio-graph presence flags. -/
theorem tryPlayInOrderF_graph :
    ∀ (f : Nat) (p : Player),
      (tryPlayInOrderF f p).hasAudioContext = p.hasAudioContext ∧
      (tryPlayInOrderF f p).hasMixerNode = p.hasMixerNode
  | 0, p => ⟨rfl, rfl⟩
  | f + 1, p => by
    rw [tryPlayInOrderF]
    cases hl : lookupBuf p.audioBufferMap p.nextSeqToPlay with
    | none => exact ⟨rfl, rfl⟩
    | some b =>
      have hrec := tryPlayInOrderF_graph f
        { enqueueAudioBuffer b p with
          audioBufferMap := eraseBuf (enqueueAudioBuffer b p).audioBufferMap
            (enqueueAudioBuffer b p).nextSeqToPlay
          nextSeqToPlay := (enqueueAudioBuffer b p).nextSeqToPlay + 1 }
      have hb := enqueueAudioBuffer_graph b p
      exact ⟨hrec.1.trans hb.1, hrec.2.trans hb.2⟩

/-- No event of the faithful machine touches the audio-graph flags. -/
theorem lplayerStep_graph (p p' : LPlayer) (e : LEvent)
    (hstep : lplayerStep p e = some p') :
    p'.core.hasAudioContext = p.core.hasAudioContext ∧
    p'.core.hasMixerNode = p.core.hasMixerNode := by
  cases e with
  | arrive seq =>
    rw [lplayerStep] at hstep
    cases hctx : p.core.hasAudioContext with
    | true =>
      rw [if_pos hctx] at hstep
      simp only [Option.some.injEq] at hstep
      cases hstep
      constructor
      · show (tryPlayInOrder { p.core with audioBufferMap := insertBuf p.core.audioBufferMap seq seq }).hasAudioContext = true
        rw [tryPlayInOrder]
        exact ((tryPlayInOrderF_graph _ _).1).trans hctx
      · show (tryPlayInOrder { p.core with audioBufferMap := insertBuf p.core.audioBufferMap seq seq }).hasMixerNode = p.core.hasMixerNode
        rw [tryPlayInOrder]
        exact (tryPlayInOrderF_graph _ _).2
    | false =>
      rw [hctx] at hstep
      simp only [Bool.false_eq_true, if_false, Option.some.injEq] at hstep
      cases hstep
      exact ⟨hctx, rfl⟩
  | endedFire s =>
    rw [lplayerStep] at hstep
    by_cases hg : s ∈ p.core.started ∧ s ∉ p.endedFired
    · rw [if_pos hg] at hstep
      simp only [Option.some.injEq] at hstep
      cases hstep
      exact playNextFromQueue_graph _
    · rw [if_neg hg] at hstep
      cases hstep
  | playbackStop =>
    rw [lplayerStep] at hstep
    cases hcur : p.core.currentPlaybackSource with
    | none =>
      rw [hcur] at hstep
      simp only [Option.some.injEq] at hstep
      cases hstep
      exact ⟨rfl, rfl⟩
    | some b =>
      rw [hcur] at hstep
      simp only [Option.some.injEq] at hstep
      cases hstep
      exact ⟨rfl, rfl⟩

/-- The audio-graph flags persist along every faithful run. -/
theorem lplayerRun_graph :
    ∀ (tr : List LEvent) (p q : LPlayer), lplayerRun p tr = some q →
      q.core.hasAudioContext = p.core.hasAudioContext ∧
      q.core.hasMixerNode = p.core.hasMixerNode
  | [], p, q, hrun => by
    rw [lplayerRun] at hrun
    cases hrun
    exact ⟨rfl, rfl⟩
  | e :: tr, p, q, hrun => by
    rw [lplayerRun] at hrun
    cases hstep : lplayerStep p e with
    | none => rw [hstep] at hrun; cases hrun
    | some p' =>
      rw [hstep] at hrun
      have h1 := lplayerRun_graph tr p' q hrun
      have h2 := lplayerStep_graph p p' e hstep
      exact ⟨h1.1.trans h2.1, h1.2.trans h2.2⟩

/-- A coerced cons as a multiset sum. -/
theorem coe_cons_eq (a : Nat) (l : List Nat) :
    ((a :: l : List Nat) : Multiset Nat) = ↑l + {a} := by
  rw [← Multiset.cons_coe, ← Multiset.singleton_add, add_comm]

/-- The scheduler starts a (possibly empty) batch of sources: the start
history grows by exactly the sources that begin to sound. -/
theorem playNextFromQueue_lockstep (p : Player) :
    ∃ d : List Nat,
      (playNextFromQueue p).started = p.started ++ d ∧
      ((playNextFromQueue p).sounding : Multiset Nat) =
        (p.sounding : Multiset Nat) + (d : Multiset Nat) := by
  cases hq : p.playbackQueue with
  | nil =>
    rw [playNextFromQueue_nil p hq]
    exact ⟨[], by simp, by simp⟩
  | cons b rest =>
    cases hg : (p.hasAudioContext && p.hasMixerNode) with
    | false =>
      have hpn : playNextFromQueue p = { p with playbackQueue := rest } := by
        simp only [playNextFromQueue, hq, hg]
        rfl
      rw [hpn]
      exact ⟨[], by simp, by simp⟩
    | true =>
      obtain ⟨hc, hm⟩ : p.hasAudioContext = true ∧ p.hasMixerNode = true := by
        simpa [Bool.and_eq_true] using hg
      rw [playNextFromQueue_cons p b rest hq hc hm]
      refine ⟨[b], rfl, ?_⟩
      show ((b :: p.sounding : List Nat) : Multiset Nat) = ↑p.sounding + {b}
      exact coe_cons_eq b p.sounding

/-- `enqueueAudioBuffer` starts a (possibly empty) batch of sources. -/
theorem enqueueAudioBuffer_lockstep (b : Nat) (p : Player) :
    ∃ d : List Nat,
      (enqueueAudioBuffer b p).started = p.started ++ d ∧
      ((enqueueAudioBuffer b p).sounding : Multiset Nat) =
        (p.sounding : Multiset Nat) + (d : Multiset Nat) := by
  unfold enqueueAudioBuffer
  dsimp only
  split
  · exact ⟨[], by simp, by simp⟩
  · obtain ⟨d, h1, h2⟩ := playNextFromQueue_lockstep
      { p with playbackQueue := p.playbackQueue ++ [b],
               enqueued := p.enqueued ++ [b] }
    exact ⟨d, h1, h2⟩

/-- The release loop starts a (possibly empty) batch of sources. -/
theorem tryPlayInOrderF_lockstep :
    ∀ (f : Nat) (p : Player), ∃ d : List Nat,
      (tryPlayInOrderF f p).started = p.started ++ d ∧
      ((tryPlayInOrderF f p).sounding : Multiset Nat) =
        (p.sounding : Multiset Nat) + (d : Multiset Nat)
  | 0, p => ⟨[], (List.append_nil _).symm, (add_zero _).symm⟩
  | f + 1, p => by
    rw [tryPlayInOrderF]
    cases hl : lookupBuf p.audioBufferMap p.nextSeqToPlay with
    | none => exact ⟨[], (List.append_nil _).symm, (add_zero _).symm⟩
    | some b =>
      obtain ⟨d1, h1, h2⟩ := enqueueAudioBuffer_lockstep b p
      obtain ⟨d2, h3, h4⟩ := tryPlayInOrderF_lockstep f
        { enqueueAudioBuffer b p with
          audioBufferMap := eraseBuf (enqueueAudioBuffer b p).audioBufferMap
            (enqueueAudioBuffer b p).nextSeqToPlay
          nextSeqToPlay := (enqueueAudioBuffer b p).nextSeqToPlay + 1 }
      refine ⟨d1 ++ d2, ?_, ?_⟩
      · have h3' : (tryPlayInOrderF f
            { enqueueAudioBuffer b p with
              audioBufferMap := eraseBuf (enqueueAudioBuffer b p).audioBufferMap
                (enqueueAudioBuffer b p).nextSeqToPlay
              nextSeqToPlay := (enqueueAudioBuffer b p).nextSeqToPlay + 1 }).started
            = p.started ++ (d1 ++ d2) := by
          rw [h3]
          show (enqueueAudioBuffer b p).started ++ d2 = p.started ++ (d1 ++ d2)
          rw [h1, List.append_assoc]
        exact h3'
      · have h4' : ((tryPlayInOrderF f
            { enqueueAudioBuffer b p with
              audioBufferMap := eraseBuf (enqueueAudioBuffer b p).audioBufferMap
                (enqueueAudioBuffer b p).nextSeqToPlay
              nextSeqToPlay := (enqueueAudioBuffer b p).nextSeqToPlay + 1 }).sounding
              : Multiset Nat)
            = (p.sounding : Multiset Nat) + ((d1 ++ d2 : List Nat) : Multiset Nat) := by
          rw [h4]
          show ((enqueueAudioBuffer b p).sounding : Multiset Nat) + ↑d2
            = (p.sounding : Multiset Nat) + (↑d1 + ↑d2)
          rw [h2, add_assoc]
        exact h4'

/-- The invariant of stop-free faithful runs: the sounding-source
invariant holds of the core, the sources with a pending completion
callback (`started` minus `endedFired`, as multisets) are exactly the
audible ones, and no handler fires more often than its source was
started. -/
def NoStopInv (p : LPlayer) : Prop :=
  SInv p.core ∧
  ((p.core.started : Multiset Nat) - (p.endedFired : Multiset Nat)
    = (p.core.sounding : Multiset Nat)) ∧
  ((p.endedFired : Multiset Nat) ≤ (p.core.started : Multiset Nat))

theorem NoStopInv_init : NoStopInv initLPlayer :=
  ⟨SInv_initPlayer, by decide, by decide⟩

/-- A frame arrival preserves the stop-free invariant. -/
theorem lplayerStep_arrive_NoStopInv (p p' : LPlayer) (seq : Nat)
    (h : NoStopInv p) (hstep : lplayerStep p (.arrive seq) = some p') :
    NoStopInv p' := by
  obtain ⟨hS, hsub, hle⟩ := h
  rw [lplayerStep, if_pos hS.ctx] at hstep
  simp only [Option.some.injEq] at hstep
  cases hstep
  obtain ⟨d, h1, h2⟩ := tryPlayInOrderF_lockstep
    (({ p.core with audioBufferMap := insertBuf p.core.audioBufferMap seq seq } : Player).audioBufferMap.length)
    { p.core with audioBufferMap := insertBuf p.core.audioBufferMap seq seq }
  refine ⟨?_, ?_, ?_⟩
  · exact tryPlayInOrderF_SInv _ _ (SInv_update_buf _ _ _ hS)
  · show ((tryPlayInOrder { p.core with audioBufferMap := insertBuf p.core.audioBufferMap seq seq }).started : Multiset Nat)
        - ↑p.endedFired
      = ((tryPlayInOrder { p.core with audioBufferMap := insertBuf p.core.audioBufferMap seq seq }).sounding : Multiset Nat)
    rw [tryPlayInOrder, h1, h2]
    show ((p.core.started : Multiset Nat) + ↑d) - ↑p.endedFired
      = (p.core.sounding : Multiset Nat) + ↑d
    rw [← tsub_add_eq_add_tsub hle, hsub]
  · show (p.endedFired : Multiset Nat) ≤
      ((tryPlayInOrder { p.core with audioBufferMap := insertBuf p.core.audioBufferMap seq seq }).started : Multiset Nat)
    rw [tryPlayInOrder, h1]
    show (p.endedFired : Multiset Nat) ≤ (p.core.started : Multiset Nat) + ↑d
    exact le_trans hle le_self_add

/-- A completion callback preserves the stop-free invariant: in a
stop-free run, the only source with a pending callback is the sounding
one, so the handler behaves exactly like a natural completion. -/
theorem lplayerStep_ended_NoStopInv (p p' : LPlayer) (s : Nat)
    (h : NoStopInv p) (hstep : lplayerStep p (.endedFire s) = some p') :
    NoStopInv p' := by
  obtain ⟨hS, hsub, hle⟩ := h
  rw [lplayerStep] at hstep
  by_cases hg : s ∈ p.core.started ∧ s ∉ p.endedFired
  case neg => rw [if_neg hg] at hstep; cases hstep
  case pos =>
    rw [if_pos hg] at hstep
    simp only [Option.some.injEq] at hstep
    cases hstep
    have hcount : 0 < Multiset.count s
        ((p.core.started : Multiset Nat) - ↑p.endedFired) := by
      rw [Multiset.count_sub]
      have hc1 : 0 < Multiset.count s (p.core.started : Multiset Nat) := by
        rw [Multiset.count_pos]
        simpa using hg.1
      have hc2 : Multiset.count s (p.endedFired : Multiset Nat) = 0 := by
        rw [Multiset.count_eq_zero]
        simpa using hg.2
      omega
    have hmem : s ∈ p.core.sounding := by
      rw [hsub] at hcount
      simpa using Multiset.count_pos.mp hcount
    rcases hS.sound with ⟨_, h2, _⟩ | ⟨b, hb1, hb2, hb3⟩
    · rw [h2] at hmem; cases hmem
    · rw [hb2] at hmem
      have hsb : s = b := by simpa using hmem
      subst hsb
      have hmid : p.core.sounding.erase s = [] := by
        rw [hb2, List.erase_cons_head]
      obtain ⟨d, h1, h2⟩ := playNextFromQueue_lockstep
        { p.core with sounding := p.core.sounding.erase s,
                      currentPlaybackSource := none, isPlaying := false }
      have hsing : (p.core.started : Multiset Nat) - ↑p.endedFired = {s} := by
        rw [hsub, hb2]
        rfl
      have hles : ({s} : Multiset Nat) ≤
          (p.core.started : Multiset Nat) - ↑p.endedFired := le_of_eq hsing.symm
      have hle2 : (↑p.endedFired + {s} : Multiset Nat) ≤ ↑p.core.started :=
        (le_tsub_iff_left hle).mp hles
      refine ⟨?_, ?_, ?_⟩
      · exact SInv_after_ended _ hS.ctx hS.mixer hmid
      · show ((playNextFromQueue { p.core with sounding := p.core.sounding.erase s, currentPlaybackSource := none, isPlaying := false }).started : Multiset Nat)
            - ↑(s :: p.endedFired)
          = ((playNextFromQueue { p.core with sounding := p.core.sounding.erase s, currentPlaybackSource := none, isPlaying := false }).sounding : Multiset Nat)
        rw [h1, h2, hmid, coe_cons_eq]
        show ((p.core.started : Multiset Nat) + ↑d) - (↑p.endedFired + {s})
          = (([] : List Nat) : Multiset Nat) + ↑d
        rw [tsub_add_eq_tsub_tsub, ← tsub_add_eq_add_tsub hle, hsing,
          ← tsub_add_eq_add_tsub (le_refl ({s} : Multiset Nat)), tsub_self]
        rfl
      · show (↑(s :: p.endedFired) : Multiset Nat) ≤
          ((playNextFromQueue { p.core with sounding := p.core.sounding.erase s, currentPlaybackSource := none, isPlaying := false }).started : Multiset Nat)
        rw [h1, coe_cons_eq]
        show (↑p.endedFired + {s} : Multiset Nat) ≤ ↑p.core.started + ↑d
        exact le_trans hle2 le_self_add

/-- The stop-free invariant holds along every stop-free faithful run. -/
theorem lplayerRun_NoStopInv :
    ∀ (tr : List LEvent) (p q : LPlayer), NoStopInv p →
      (∀ e ∈ tr, e ≠ LEvent.playbackStop) →
      lplayerRun p tr = some q → NoStopInv q
  | [], p, q, h, _, hrun => by
    rw [lplayerRun] at hrun
    cases hrun
    exact h
  | .arrive s :: tr, p, q, h, hnostop, hrun => by
    rw [lplayerRun] at hrun
    cases hstep : lplayerStep p (.arrive s) with
    | none => rw [hstep] at hrun; cases hrun
    | some p' =>
      rw [hstep] at hrun
      exact lplayerRun_NoStopInv tr p' q
        (lplayerStep_arrive_NoStopInv p p' s h hstep)
        (fun e he => hnostop e (List.mem_cons_of_mem _ he)) hrun
  | .endedFire s :: tr, p, q, h, hnostop, hrun => by
    rw [lplayerRun] at hrun
    cases hstep : lplayerStep p (.endedFire s) with
    | none => rw [hstep] at hrun; cases hrun
    | some p' =>
      rw [hstep] at hrun
      exact lplayerRun_NoStopInv tr p' q
        (lplayerStep_ended_NoStopInv p p' s h hstep)
        (fun e he => hnostop e (List.mem_cons_of_mem _ he)) hrun
  | .playbackStop :: tr, p, q, h, hnostop, hrun =>
    absurd rfl (hnostop _ (List.mem_cons_self _ _))

/-- The media-arrival branch acts on the `Player` core alone. -/
theorem lplayerStep_arrive_core (p : LPlayer) (seq : Nat) :
    (lplayerStep p (.arrive seq)).map LPlayer.core =
      playerStep p.core (.arrive seq) := by
  rw [lplayerStep, playerStep]
  cases hctx : p.core.hasAudioContext <;> simp [hctx]

/-! ### Claim theorems C7 and C9, on the faithful machine -/

/-- C7 counterexample: the program does *not* keep at most one payload
sounding in every reachable state.  Frame 0 arrives and sounds; the
server's stop command halts it (`stop()`), but the halted source's
`onended` is still pending; frames 1 and 2 arrive — 1 starts a fresh
chain, 2 queues behind it; then the stopped source's completion handler
fires late: it clears the playing flag and calls `playNextFromQueue`,
which starts payload 2 while payload 1 is still sounding.  Two payloads
(`sounding = [2, 1]`) sound simultaneously. -/
theorem two_sounding_after_stop_counterexample :
    lplayerRun initLPlayer [LEvent.arrive 0, LEvent.playbackStop,
      LEvent.arrive 1, LEvent.arrive 2, LEvent.endedFire 0] = some
      { core :=
          { playbackQueue := []
            isPlaying := true
            nextSeqToPlay := 3
            audioBufferMap := []
            currentPlaybackSource := some 2
            sounding := [2, 1]
            started := [0, 1, 2]
            enqueued := [0, 1, 2]
            hasAudioContext := true
            hasMixerNode := true }
        endedFired := [0] } ∧
    ({ core :=
         { playbackQueue := []
           isPlaying := true
           nextSeqToPlay := 3
           audioBufferMap := []
           currentPlaybackSource := some 2
           sounding := [2, 1]
           started := [0, 1, 2]
           enqueued := [0, 1, 2]
           hasAudioContext := true
           hasMixerNode := true }
       endedFired := [0] } : LPlayer).core.sounding.length = 2 :=
  ⟨by decide, by decide⟩

/-- C7 amended: in every state reachable *without* the server
stop-playback command, at most one payload is currently sounding — the
scheduler starts a source only when the playing flag is clear, and with
no `stop()` issued the only source with a pending completion callback
is the sounding one, so the next source starts only from its
completion.  (After a stop command, the halted source's late `onended`
can start a second source while one is already sounding — see the
counterexample.) -/
theorem at_most_one_sounding_without_stop (tr : List LEvent) (q : LPlayer)
    (hnostop : ∀ e ∈ tr, e ≠ LEvent.playbackStop)
    (hrun : lplayerRun initLPlayer tr = some q) :
    q.core.sounding.length ≤ 1 := by
  have h := lplayerRun_NoStopInv tr initLPlayer q NoStopInv_init hnostop hrun
  rcases h.1.sound with ⟨_, h2, _⟩ | ⟨b, _, h2, _⟩ <;> rw [h2] <;> simp

/-- C7 amended witness: a stop-free run with a natural completion. -/
theorem at_most_one_sounding_without_stop_witness :
    lplayerRun initLPlayer
      [LEvent.arrive 0, LEvent.arrive 1, LEvent.endedFire 0] = some
      { core :=
          { playbackQueue := []
            isPlaying := true
            nextSeqToPlay := 2
            audioBufferMap := []
            currentPlaybackSource := some 1
            sounding := [1]
            started := [0, 1]
            enqueued := [0, 1]
            hasAudioContext := true
            hasMixerNode := true }
        endedFired := [0] } ∧
    ({ core :=
         { playbackQueue := []
           isPlaying := true
           nextSeqToPlay := 2
           audioBufferMap := []
           currentPlaybackSource := some 1
           sounding := [1]
           started := [0, 1]
           enqueued := [0, 1]
           hasAudioContext := true
           hasMixerNode := true }
       endedFired := [0] } : LPlayer).core.sounding.length ≤ 1 :=
  ⟨by decide, at_most_one_sounding_without_stop
    [LEvent.arrive 0, LEvent.arrive 1, LEvent.endedFire 0]
    { core :=
        { playbackQueue := []
          isPlaying := true
          nextSeqToPlay := 2
          audioBufferMap := []
          currentPlaybackSource := some 1
          sounding := [1]
          started := [0, 1]
          enqueued := [0, 1]
          hasAudioContext := true
          hasMixerNode := true }
      endedFired := [0] } (by decide) (by decide)⟩

/-- C9: on receipt of a well-formed `{type:"playback", play:false}`
message in any reachable state, the source held in
`currentPlaybackSourceRef` is halted immediately (removed from the
sounding sources — with it, the sounding payload whenever it was the
only one), the playing flag is cleared and the PlaybackQueue becomes
empty.  The halted source's `onended` still fires later, but because
the queue is empty it starts nothing: the start history and the idle
flag are unchanged.  No further payload plays until new frames arrive —
and an arrival of the next-expected sequence number then starts a fresh
chain immediately from the empty queue. -/
theorem playback_stop_clears (tr : List LEvent) (p q q' : LPlayer) (b s : Nat)
    (hrun : lplayerRun initLPlayer tr = some p)
    (hcur : p.core.currentPlaybackSource = some b)
    (hstop : lplayerStep p .playbackStop = some q)
    (hlate : lplayerStep q (.endedFire s) = some q') :
    q.core.sounding = p.core.sounding.erase b ∧
    q.core.isPlaying = false ∧
    q.core.playbackQueue = [] ∧
    q.core.currentPlaybackSource = none ∧
    (p.core.sounding = [b] → q.core.sounding = []) ∧
    q'.core.started = q.core.started ∧
    q'.core.isPlaying = false ∧
    q'.core.playbackQueue = [] ∧
    (lplayerStep q (.arrive q.core.nextSeqToPlay)).map
      (fun r => r.core.isPlaying) = some true ∧
    (lplayerStep q (.arrive q.core.nextSeqToPlay)).map
      (fun r => r.core.started) =
      some (q.core.started ++ [q.core.nextSeqToPlay]) := by
  have hgraph := lplayerRun_graph tr initLPlayer p hrun
  have hctxp : p.core.hasAudioContext = true := hgraph.1.trans rfl
  have hmixp : p.core.hasMixerNode = true := hgraph.2.trans rfl
  have hq1 : q.core.sounding = p.core.sounding.erase b ∧
      q.core.isPlaying = false ∧
      q.core.playbackQueue = [] ∧
      q.core.currentPlaybackSource = none ∧
      q.core.started = p.core.started ∧
      q.core.hasAudioContext = p.core.hasAudioContext ∧
      q.core.hasMixerNode = p.core.hasMixerNode := by
    rw [lplayerStep] at hstop
    rw [hcur] at hstop
    simp only [Option.some.injEq] at hstop
    cases hstop
    exact ⟨rfl, rfl, rfl, rfl, rfl, rfl, rfl⟩
  have hctxq : q.core.hasAudioContext = true := hq1.2.2.2.2.2.1.trans hctxp
  have hmixq : q.core.hasMixerNode = true := hq1.2.2.2.2.2.2.trans hmixp
  have hlate3 : q'.core.started = q.core.started ∧
      q'.core.isPlaying = false ∧ q'.core.playbackQueue = [] := by
    rw [lplayerStep] at hlate
    by_cases hg : s ∈ q.core.started ∧ s ∉ q.endedFired
    · rw [if_pos hg] at hlate
      simp only [Option.some.injEq] at hlate
      cases hlate
      have hpn := playNextFromQueue_nil
        { q.core with sounding := q.core.sounding.erase s,
                      currentPlaybackSource := none, isPlaying := false }
        hq1.2.2.1
      refine ⟨?_, ?_, ?_⟩
      · show (playNextFromQueue { q.core with sounding := q.core.sounding.erase s, currentPlaybackSource := none, isPlaying := false }).started = q.core.started
        rw [hpn]
      · show (playNextFromQueue { q.core with sounding := q.core.sounding.erase s, currentPlaybackSource := none, isPlaying := false }).isPlaying = false
        rw [hpn]
      · show (playNextFromQueue { q.core with sounding := q.core.sounding.erase s, currentPlaybackSource := none, isPlaying := false }).playbackQueue = []
        rw [hpn]
        exact hq1.2.2.1
    · rw [if_neg hg] at hlate
      cases hlate
  obtain ⟨hf1, hf2⟩ :=
    arrive_fresh_start q.core hctxq hmixq hq1.2.2.1 hq1.2.1
  have h9 := hf1
  rw [← lplayerStep_arrive_core q q.core.nextSeqToPlay,
    Option.map_map] at h9
  have h10 := hf2
  rw [← lplayerStep_arrive_core q q.core.nextSeqToPlay,
    Option.map_map] at h10
  exact ⟨hq1.1, hq1.2.1, hq1.2.2.1, hq1.2.2.2.1,
    fun hs => by rw [hq1.1, hs, List.erase_cons_head],
    hlate3.1, hlate3.2.1, hlate3.2.2, h9, h10⟩

/-- C9 witness: the spec's own scenario — frames `0,1,2` arrive, `0` is
sounding with `1,2` queued, the server stop command arrives, and the
halted source's completion callback later fires without starting
anything. -/
theorem playback_stop_clears_witness :
    lplayerStep
      { core :=
          { playbackQueue := [1, 2]
            isPlaying := true
            nextSeqToPlay := 3
            audioBufferMap := []
            currentPlaybackSource := some 0
            sounding := [0]
            started := [0]
            enqueued := [0, 1, 2]
            hasAudioContext := true
            hasMixerNode := true }
        endedFired := [] } .playbackStop = some
      { core :=
          { playbackQueue := []
            isPlaying := false
            nextSeqToPlay := 3
            audioBufferMap := []
            currentPlaybackSource := none
            sounding := []
            started := [0]
            enqueued := [0, 1, 2]
            hasAudioContext := true
            hasMixerNode := true }
        endedFired := [] } ∧
    ({ core :=
         { playbackQueue := []
           isPlaying := false
           nextSeqToPlay := 3
           audioBufferMap := []
           currentPlaybackSource := none
           sounding := []
           started := [0]
           enqueued := [0, 1, 2]
           hasAudioContext := true
           hasMixerNode := true }
       endedFired := [] } : LPlayer).core.playbackQueue = [] ∧
    ({ core :=
         { playbackQueue := []
           isPlaying := false
           nextSeqToPlay := 3
           audioBufferMap := []
           currentPlaybackSource := none
           sounding := []
           started := [0]
           enqueued := [0, 1, 2]
           hasAudioContext := true
           hasMixerNode := true }
       endedFired := [] } : LPlayer).core.isPlaying = false ∧
    ({ core :=
         { playbackQueue := []
           isPlaying := false
           nextSeqToPlay := 3
           audioBufferMap := []
           currentPlaybackSource := none
           sounding := []
           started := [0]
           enqueued := [0, 1, 2]
           hasAudioContext := true
           hasMixerNode := true }
       endedFired := [] } : LPlayer).core.sounding = [] ∧
    ({ core :=
         { playbackQueue := []
           isPlaying := false
           nextSeqToPlay := 3
           audioBufferMap := []
           currentPlaybackSource := none
           sounding := []
           started := [0]
           enqueued := [0, 1, 2]
           hasAudioContext := true
           hasMixerNode := true }
       endedFired := [0] } : LPlayer).core.started =
      ({ core :=
           { playbackQueue := []
             isPlaying := false
             nextSeqToPlay := 3
             audioBufferMap := []
             currentPlaybackSource := none
             sounding := []
             started := [0]
             enqueued := [0, 1, 2]
             hasAudioContext := true
             hasMixerNode := true }
         endedFired := [] } : LPlayer).core.started := by
  have h := playback_stop_clears
    [LEvent.arrive 0, LEvent.arrive 2, LEvent.arrive 1]
    { core :=
        { playbackQueue := [1, 2]
          isPlaying := true
          nextSeqToPlay := 3
          audioBufferMap := []
          currentPlaybackSource := some 0
          sounding := [0]
          started := [0]
          enqueued := [0, 1, 2]
          hasAudioContext := true
          hasMixerNode := true }
      endedFired := [] }
    { core :=
        { playbackQueue := []
          isPlaying := false
          nextSeqToPlay := 3
          audioBufferMap := []
          currentPlaybackSource := none
          sounding := []
          started := [0]
          enqueued := [0, 1, 2]
          hasAudioContext := true
          hasMixerNode := true }
      endedFired := [] }
    { core :=
        { playbackQueue := []
          isPlaying := false
          nextSeqToPlay := 3
          audioBufferMap := []
          currentPlaybackSource := none
          sounding := []
          started := [0]
          enqueued := [0, 1, 2]
          hasAudioContext := true
          hasMixerNode := true }
      endedFired := [0] }
    0 0 (by decide) (by decide) (by decide) (by decide)
  exact ⟨by decide, h.2.2.1, h.2.1, h.2.2.2.2.1 (by decide), h.2.2.2.2.2.1⟩
